import Mathlib

/-!
# Mandelbrot driver (`prob1_mandelbrot_threads/main.cpp`)

A shallow embedding of the driver of the threaded Mandelbrot assignment:
`scaleAndShift`, `verifyResult` and `main`, together with the properties of
the verifier, of the timing loop and of the driver's control flow.

Modelling conventions.

* An `int` is an `Int`.  Signed overflow is undefined behaviour in C++, so the
  embedding describes the executions in which no `int` expression overflows
  (in `verifyResult` the largest value computed is below `width * height`;
  `main` calls it with `600 * 600`).
* A `float` is a binary32 value (`F32`): a finite value, given by the rational
  it denotes, an infinity or a NaN; the two zeros are one value.  Products and
  sums are rounded to the nearest binary32 value, ties to even, after each
  operation.  The `float` value of a decimal literal is the rounding of the
  decimal; for the two initialisers written as `double` literals (`-2.167`
  and `1.167`) the rounding is the same for every rational within `2^-50` of
  the decimal, so also when the `double` value is rounded.
* A `double` holding a duration is a rational number; the only operations on
  durations are `std::min` and the comparison in it, which are exact.
* An `int*` is a function from cell index to cell contents.
* Loop counters that run upwards from `0` are natural numbers; a loop
  `for (k = 0; k < n; k++)` is a recursion on the number of iterations left.
* What the program prints is a list of `Line`s, one constructor per `printf`
  format of the source.
-/

namespace Mandelbrot

/-! ## Data model -/

/-- Memory reached through an `int*`: the contents of cell `k`. -/
abbrev Buffer := Int → Int

/-- One line of output, one constructor per format string of `main.cpp`. -/
inductive Line where
  /-- Format `"Mismatch : [%d][%d], Expected : %d, Actual : %d\n"`. -/
  | mismatch (row col expected actual : Int)
  /-- Format `" ...\n"`. -/
  | ellipsis
  /-- Format `"[mandelbrot serial]:\t\t[%.3f] ms\n"`. -/
  | serialTime (ms : ℚ)
  /-- Format `"[mandelbrot thread]:\t\t[%.3f] ms\n"`. -/
  | threadTime (ms : ℚ)
  /-- Format `"ERROR : Output from threads does not match serial output\n"`. -/
  | error
  /-- Format `"++++\t\t\t\t(%.2fx speedup from %d threads)\n"`. -/
  | speedup (ratio : ℚ) (numThreads : Int)
  /-- Format `"Invalid view index %d\n"` (standard error). -/
  | invalidView (viewIndex : Int)
  /-- Format `"Couldn't extract field from '%s'\n"` (standard error). -/
  | badField
  /-- The text printed by `usage`. -/
  | usage
  deriving DecidableEq

/-! ## `verifyResult` -/

/-- The local variables of `verifyResult`, the lines it has printed, and the
cells it has compared so far (`examined` is an observation of the run, the
source has no such variable). -/
structure VState where
  errLimit : Int
  ok : Bool
  printed : List Line
  examined : List (Nat × Nat)
  deriving DecidableEq

/-- The body of the inner loop at cell `(i, j)`: lines 61-69.  The second
component tells whether `return ok` of line 67 was reached. -/
def cellStep (gold result : Buffer) (width : Int) (i j : Nat) (st : VState) :
    VState × Bool :=
  let st := { st with examined := st.examined ++ [(i, j)] }
  if gold ((i : Int) * width + j) ≠ result ((i : Int) * width + j) then
    let st := { st with
      printed := st.printed ++
        [Line.mismatch i j (gold ((i : Int) * width + j)) (result ((i : Int) * width + j))]
      ok := false
      errLimit := st.errLimit - 1 }
    if st.errLimit ≤ 0 then
      ({ st with printed := st.printed ++ [Line.ellipsis] }, true)
    else
      (st, false)
  else
    (st, false)

/-- The loop `for (j = 0; j < width; j++)` of row `i`, entered at column `j`
with `n` iterations left. -/
def colLoop (gold result : Buffer) (width : Int) (i : Nat) :
    Nat → Nat → VState → VState × Bool
  | 0, _, st => (st, false)
  | n + 1, j, st =>
    let r := cellStep gold result width i j st
    if r.2 then r else colLoop gold result width i n (j + 1) r.1

/-- The loop `for (i = 0; i < height; i++)`, entered at row `i` with `n`
iterations left. -/
def rowLoop (gold result : Buffer) (width : Int) :
    Nat → Nat → VState → VState × Bool
  | 0, _, st => (st, false)
  | n + 1, i, st =>
    let r := colLoop gold result width i width.toNat 0 st
    if r.2 then r else rowLoop gold result width n (i + 1) r.1

/-- The state in which `verifyResult` enters its loops: `errLimit = 5`,
`ok = true`. -/
def verifyInit : VState :=
  { errLimit := 5, ok := true, printed := [], examined := [] }

/-- The run of `verifyResult (gold, result, width, height)`: the final state
and whether the function left through the early `return` of line 67. -/
def verifyRun (gold result : Buffer) (width height : Int) : VState × Bool :=
  rowLoop gold result width height.toNat 0 verifyInit

/-- The value returned by `verifyResult`: `ok` on both `return` statements. -/
def verifyResult (gold result : Buffer) (width height : Int) : Bool :=
  (verifyRun gold result width height).1.ok

/-! ### The grid in row-major order -/

/-- The cells of row `i`, by increasing column. -/
def rowCells (width i : Nat) : List (Nat × Nat) :=
  (List.range width).map (fun j => (i, j))

/-- The cells of the `width x height` grid in row-major order. -/
def gridCells (width height : Nat) : List (Nat × Nat) :=
  (List.range height).flatMap (rowCells width)

/-- Whether the two buffers differ at a cell. -/
def differs (gold result : Buffer) (width : Int) (c : Nat × Nat) : Bool :=
  decide (gold ((c.1 : Int) * width + c.2) ≠ result ((c.1 : Int) * width + c.2))

/-- The mismatching cells of the grid, in row-major order. -/
def mismatchCells (gold result : Buffer) (width height : Int) : List (Nat × Nat) :=
  (gridCells width.toNat height.toNat).filter (differs gold result width)

/-- The report printed for a mismatching cell. -/
def report (gold result : Buffer) (width : Int) (c : Nat × Nat) : Line :=
  Line.mismatch c.1 c.2 (gold ((c.1 : Int) * width + c.2)) (result ((c.1 : Int) * width + c.2))

/-- Whether a line is a mismatch report. -/
def Line.isReport : Line → Bool
  | Line.mismatch _ _ _ _ => true
  | _ => false

/-- The cells a scan examines when it stops at the `k`-th cell satisfying
`p`: the list up to and including that cell, or the whole list when fewer
than `k` cells satisfy `p`. -/
def scanUpTo {α : Type} (p : α → Bool) : Nat → List α → List α
  | 0, _ => []
  | _ + 1, [] => []
  | k + 1, c :: cs =>
    c :: (if p c then scanUpTo p k cs else scanUpTo p (k + 1) cs)

/-- The two nested loops as one scan over a list of cells. -/
def scanCells (gold result : Buffer) (width : Int) :
    List (Nat × Nat) → VState → VState × Bool
  | [], st => (st, false)
  | c :: cs, st =>
    let r := cellStep gold result width c.1 c.2 st
    if r.2 then r else scanCells gold result width cs r.1

/-! ## Binary32 arithmetic -/

/-- A binary32 value: a finite value (the rational it denotes), plus or minus
infinity, or a NaN. -/
inductive F32 where
  | fin (q : ℚ)
  | pinf
  | ninf
  | nan
  deriving DecidableEq

/-- Rounding of a rational to the nearest integer, ties to the even one. -/
def roundEven (a : ℚ) : Int :=
  if a - ⌊a⌋ < 1 / 2 then ⌊a⌋
  else if 1 / 2 < a - ⌊a⌋ then ⌊a⌋ + 1
  else if ⌊a⌋ % 2 = 0 then ⌊a⌋ else ⌊a⌋ + 1

/-- The spacing of the binary32 values in the binade of a positive rational:
`2 ^ (e - 23)` with `e` the exponent of the binade, at least `-126`. -/
def ulp (a : ℚ) : ℚ := 2 ^ (max (Int.log 2 a) (-126) - 23)

/-- Rounding of a non-negative rational to the nearest multiple of the spacing
of its binade, ties to the even multiple. -/
def roundMag (a : ℚ) : ℚ := roundEven (a / ulp a) * ulp a

/-- Rounding of a rational to binary32, to nearest, ties to even: a result of
magnitude `2 ^ 128` or more is an infinity. -/
def F32.ofRat (q : ℚ) : F32 :=
  if 0 ≤ q then
    if roundMag q < 2 ^ 128 then F32.fin (roundMag q) else F32.pinf
  else
    if roundMag (-q) < 2 ^ 128 then F32.fin (-roundMag (-q)) else F32.ninf

/-- The product of two binary32 values. -/
def F32.mul : F32 → F32 → F32
  | F32.fin a, F32.fin b => F32.ofRat (a * b)
  | F32.nan, _ => F32.nan
  | _, F32.nan => F32.nan
  | F32.fin a, F32.pinf => if a = 0 then F32.nan else if 0 < a then F32.pinf else F32.ninf
  | F32.fin a, F32.ninf => if a = 0 then F32.nan else if 0 < a then F32.ninf else F32.pinf
  | F32.pinf, F32.fin b => if b = 0 then F32.nan else if 0 < b then F32.pinf else F32.ninf
  | F32.ninf, F32.fin b => if b = 0 then F32.nan else if 0 < b then F32.ninf else F32.pinf
  | F32.pinf, F32.pinf => F32.pinf
  | F32.pinf, F32.ninf => F32.ninf
  | F32.ninf, F32.pinf => F32.ninf
  | F32.ninf, F32.ninf => F32.pinf

/-- The sum of two binary32 values. -/
def F32.add : F32 → F32 → F32
  | F32.fin a, F32.fin b => F32.ofRat (a + b)
  | F32.nan, _ => F32.nan
  | _, F32.nan => F32.nan
  | F32.pinf, F32.ninf => F32.nan
  | F32.ninf, F32.pinf => F32.nan
  | F32.pinf, _ => F32.pinf
  | _, F32.pinf => F32.pinf
  | F32.ninf, _ => F32.ninf
  | _, F32.ninf => F32.ninf

/-- The comparison `<` of two binary32 values; it is false when one is a
NaN. -/
def F32.lt : F32 → F32 → Prop
  | F32.fin a, F32.fin b => a < b
  | F32.ninf, F32.fin _ => True
  | F32.ninf, F32.pinf => True
  | F32.fin _, F32.pinf => True
  | _, _ => False

/-- The comparison `<=` of two binary32 values; it is false when one is a
NaN. -/
def F32.le : F32 → F32 → Prop
  | F32.fin a, F32.fin b => a ≤ b
  | F32.ninf, F32.fin _ => True
  | F32.ninf, F32.pinf => True
  | F32.ninf, F32.ninf => True
  | F32.fin _, F32.pinf => True
  | F32.pinf, F32.pinf => True
  | _, _ => False

/-- A value that a `float` can hold: a finite value is one that rounding
leaves unchanged. -/
def F32.representable : F32 → Prop
  | F32.fin q => F32.ofRat q = F32.fin q
  | _ => True

/-! ## `scaleAndShift` -/

/-- The four viewport bounds `x0, x1, y0, y1`. -/
structure Bounds where
  x0 : F32
  x1 : F32
  y0 : F32
  y1 : F32
  deriving DecidableEq

/-- The function `scaleAndShift`: the value of its four reference parameters
on return, lines 33-40. -/
def scaleAndShift (x0 x1 y0 y1 scale shiftX shiftY : F32) : Bounds :=
  let x0 := F32.mul x0 scale
  let x1 := F32.mul x1 scale
  let y0 := F32.mul y0 scale
  let y1 := F32.mul y1 scale
  let x0 := F32.add x0 shiftX
  let x1 := F32.add x1 shiftX
  let y0 := F32.add y0 shiftY
  let y1 := F32.add y1 shiftY
  { x0 := x0, x1 := x1, y0 := y0, y1 := y1 }

/-! ## `main` -/

/-- The constant `VIEWCNT`. -/
def VIEWCNT : Int := 7

/-- The constant `width` of `main`. -/
def width : Int := 600

/-- The constant `height` of `main`: the height of the canvas. -/
def height : Int := 600

/-- The constant `iheight` of `main`: the height of the actual image. -/
def iheight : Int := height - 1

/-- The constant `maxIterations` of `main`. -/
def maxIterations : Int := 256

/-- The array `scaleValues` of `main`: the binary32 values of its literals. -/
def scaleValues : List F32 :=
  [F32.ofRat 0.01, F32.ofRat 1.0, F32.ofRat 0.015, F32.ofRat 0.02, F32.ofRat 0.02,
    F32.ofRat 0.02, F32.ofRat 0.002]

/-- The array `shiftXs` of `main`: the binary32 values of its literals. -/
def shiftXs : List F32 :=
  [F32.ofRat 0.0, F32.ofRat 0.0, F32.ofRat (-0.98), F32.ofRat 0.35, F32.ofRat 0.0,
    F32.ofRat (-1.5), F32.ofRat (-1.4)]

/-- The array `shiftYs` of `main`: the binary32 values of its literals. -/
def shiftYs : List F32 :=
  [F32.ofRat 0.0, F32.ofRat 0.0, F32.ofRat 0.30, F32.ofRat 0.05, F32.ofRat 0.73,
    F32.ofRat 0.0, F32.ofRat 0.0]

/-- One option as `getopt_long` hands it to the `switch` of `main`, with its
argument already converted: `atoi (optarg)` for `-t` and `-v`; for `-f` the
four `float` values `x0:y0:x1:y1` when `sscanf` converted four fields, `none`
otherwise. -/
inductive Opt where
  | threads (n : Int)
  | view (n : Int)
  | field (r : Option (F32 × F32 × F32 × F32))
  | out (name : String)
  /-- The character `'?'` and every other return value of `getopt_long`. -/
  | help
  deriving DecidableEq

/-- The local variables of `main` that the option loop assigns. -/
structure Locals where
  numThreads : Int
  x0 : F32
  x1 : F32
  y0 : F32
  y1 : F32
  viewIndex : Int
  fname : String
  have_file : Bool
  deriving DecidableEq

/-- The locals on entry of the option loop, lines 86-111: the bounds are the
binary32 values of the initialisers (`fname` is not set by the source; it is
read only after it has been assigned). -/
def initLocals : Locals :=
  { numThreads := 2, x0 := F32.ofRat (-2.167), x1 := F32.ofRat 1.167, y0 := F32.ofRat (-1),
    y1 := F32.ofRat 1, viewIndex := 0, fname := "", have_file := false }

/-- The option loop of `main`, lines 112-149.  An error carries the exit
status and what was printed before leaving. -/
def parseOptions : List Opt → Locals → Except (Int × List Line) Locals
  | [], s => Except.ok s
  | Opt.threads n :: rest, s => parseOptions rest { s with numThreads := n }
  | Opt.view n :: rest, s =>
    if n < 0 ∨ n ≥ VIEWCNT then Except.error (1, [Line.invalidView n])
    else parseOptions rest { s with viewIndex := n }
  | Opt.field none :: _, _ => Except.error (1, [Line.badField])
  | Opt.field (some (a, b, c, d)) :: rest, s =>
    parseOptions rest { s with x0 := a, y0 := b, x1 := c, y1 := d }
  | Opt.out name :: rest, s => parseOptions rest { s with fname := name, have_file := true }
  | Opt.help :: _, _ => Except.error (1, [Line.usage])

/-- A call of one of the two evaluators, with its scalar arguments. -/
inductive Call where
  | serial (x0 y0 x1 y1 : F32) (width height startRow numRows maxIterations : Int)
  | thread (numThreads : Int) (x0 y0 x1 y1 : F32) (width height maxIterations : Int)
  deriving DecidableEq

/-- The preconditions of the core on a call: at least one thread, a positive
resolution, and `x0 < x1`, `y0 < y1`. -/
def Call.valid : Call → Prop
  | Call.serial x0 y0 x1 y1 w h _ _ _ => 0 < w ∧ 0 < h ∧ F32.lt x0 x1 ∧ F32.lt y0 y1
  | Call.thread n x0 y0 x1 y1 w h _ =>
    1 ≤ n ∧ 0 < w ∧ 0 < h ∧ F32.lt x0 x1 ∧ F32.lt y0 y1

/-- The preconditions of the core on a call with the order of the bounds
weakened to `x0 <= x1`, `y0 <= y1`. -/
def Call.weaklyValid : Call → Prop
  | Call.serial x0 y0 x1 y1 w h _ _ _ => 0 < w ∧ 0 < h ∧ F32.le x0 x1 ∧ F32.le y0 y1
  | Call.thread n x0 y0 x1 y1 w h _ =>
    1 ≤ n ∧ 0 < w ∧ 0 < h ∧ F32.le x0 x1 ∧ F32.le y0 y1

/-- The viewport bounds passed on a call. -/
def Call.bounds : Call → Bounds
  | Call.serial x0 y0 x1 y1 _ _ _ _ _ => { x0 := x0, x1 := x1, y0 := y0, y1 := y1 }
  | Call.thread _ x0 y0 x1 y1 _ _ _ => { x0 := x0, x1 := x1, y0 := y0, y1 := y1 }

/-- The resolution passed on a call. -/
def Call.resolution : Call → Int × Int
  | Call.serial _ _ _ _ w h _ _ _ => (w, h)
  | Call.thread _ _ _ _ _ w h _ => (w, h)

/-- A call of `writePPMImage`, with its arguments. -/
structure Image where
  data : Buffer
  width : Int
  height : Int
  filename : String
  maxIterations : Int

/-- What `main` does not define itself: the two evaluators (as the effect of
a call on the output array, a function of the arguments and of the array),
the successive readings of `CycleTimer::currentSeconds`, and the contents of
the arrays that `new int[width*height]` returns (`fresh 0` is the first
array, `fresh 1` the second). -/
structure Env where
  mandelbrotSerial : F32 → F32 → F32 → F32 → Int → Int → Int → Int → Int → Buffer → Buffer
  mandelbrotThread : Int → F32 → F32 → F32 → F32 → Int → Int → Int → Buffer → Buffer
  currentSeconds : Nat → ℚ
  fresh : Nat → Buffer

/-- The call `memset (b, 0, n * sizeof(int))`. -/
def zeroFill (b : Buffer) (n : Int) : Buffer :=
  fun k => if 0 ≤ k ∧ k < n then 0 else b k

/-- The function `std::min` on two values: `(b < a) ? b : a`. -/
def stdMin (a b : ℚ) : ℚ := if b < a then b else a

/-- The state of a timing loop: the minimum so far, the output array, the
number of clock readings taken so far, and the evaluator calls made. -/
structure Bench where
  minTime : ℚ
  output : Buffer
  ticks : Nat
  calls : List Call

/-- A timing loop of `main`, lines 176-181 and 192-197, with `n` iterations
left: `run` is the evaluator call of the body and `call` its record. -/
def benchLoop (run : Buffer → Buffer) (call : Call) (clock : Nat → ℚ) :
    Nat → Bench → Bench
  | 0, s => s
  | n + 1, s =>
    let startTime := clock s.ticks
    let output := run s.output
    let endTime := clock (s.ticks + 1)
    benchLoop run call clock n
      { minTime := stdMin s.minTime (endTime - startTime)
        output := output
        ticks := s.ticks + 2
        calls := s.calls ++ [call] }

/-- What a run of `main` does: exit status, lines printed, evaluator calls and
images written. -/
structure Outcome where
  status : Int
  printed : List Line
  calls : List Call
  images : List Image

/-- Lines 151-154: the viewport after the preset of the view was applied. -/
def viewport (s : Locals) : Bounds :=
  let scaleValue := scaleValues.getD s.viewIndex.toNat (F32.fin 0)
  let shiftX := shiftXs.getD s.viewIndex.toNat (F32.fin 0)
  let shiftY := shiftYs.getD s.viewIndex.toNat (F32.fin 0)
  scaleAndShift s.x0 s.x1 s.y0 s.y1 scaleValue shiftX shiftY

/-- Lines 156-163: the mode that only writes the image of the threaded
evaluator. -/
def fastPath (env : Env) (s : Locals) (b : Bounds) : Outcome :=
  let output := env.fresh 0
  let output := env.mandelbrotThread s.numThreads b.x0 b.y0 b.x1 b.y1 width iheight
    maxIterations output
  { status := 0
    printed := []
    calls := [Call.thread s.numThreads b.x0 b.y0 b.x1 b.y1 width iheight maxIterations]
    images := [{ data := output, width := width, height := height, filename := s.fname,
                 maxIterations := maxIterations }] }

/-- Lines 166-181: the serial runs, on the first array zero-filled. -/
def serialBench (env : Env) (b : Bounds) : Bench :=
  let output_serial := env.fresh 0
  let numRuns := 3
  let output_serial := zeroFill output_serial (width * height)
  benchLoop (env.mandelbrotSerial b.x0 b.y0 b.x1 b.y1 width iheight 0 iheight maxIterations)
    (Call.serial b.x0 b.y0 b.x1 b.y1 width iheight 0 iheight maxIterations)
    env.currentSeconds numRuns
    { minTime := 1e30, output := output_serial, ticks := 0, calls := [] }

/-- Lines 190-197: the threaded runs, on the second array zero-filled; the
clock and the call record continue from the serial runs. -/
def threadBench (env : Env) (s : Locals) (b : Bounds) : Bench :=
  let output_thread := env.fresh 1
  let numRuns := 3
  let output_thread := zeroFill output_thread (width * height)
  benchLoop (env.mandelbrotThread s.numThreads b.x0 b.y0 b.x1 b.y1 width iheight maxIterations)
    (Call.thread s.numThreads b.x0 b.y0 b.x1 b.y1 width iheight maxIterations)
    env.currentSeconds numRuns
    { minTime := 1e30, output := output_thread, ticks := (serialBench env b).ticks,
      calls := (serialBench env b).calls }

/-- Lines 166-218: the mode that compares the two evaluators. -/
def comparison (env : Env) (s : Locals) (b : Bounds) : Outcome :=
  let ser := serialBench env b
  let minSerial := ser.minTime
  let output_serial := ser.output
  let line1 := Line.serialTime (minSerial * 1000)
  let image1 : Image :=
    { data := output_serial, width := width, height := height,
      filename := "mandelbrot-v" ++ toString s.viewIndex ++ "-serial.ppm",
      maxIterations := maxIterations }
  let thr := threadBench env s b
  let minThread := thr.minTime
  let output_thread := thr.output
  let line2 := Line.threadTime (minThread * 1000)
  let image2 : Image :=
    { data := output_thread, width := width, height := height,
      filename := "mandelbrot-v" ++ toString s.viewIndex ++ "-thread-"
        ++ toString s.numThreads ++ ".ppm",
      maxIterations := maxIterations }
  let v := verifyRun output_serial output_thread width height
  if ! v.1.ok then
    { status := 1
      printed := [line1, line2] ++ v.1.printed ++ [Line.error]
      calls := thr.calls
      images := [image1, image2] }
  else
    { status := 0
      printed := [line1, line2] ++ v.1.printed
        ++ [Line.speedup (minSerial / minThread) s.numThreads]
      calls := thr.calls
      images := [image1, image2] }

/-- The function `main`, on the options of the command line. -/
def main (env : Env) (args : List Opt) : Outcome :=
  match parseOptions args initLocals with
  | Except.error (status, printed) =>
    { status := status, printed := printed, calls := [], images := [] }
  | Except.ok s =>
    let b := viewport s
    if s.have_file then fastPath env s b else comparison env s b

/-! ### Assumptions on the evaluators -/

/-- An evaluator writes nothing outside the rows it is asked to compute: the
rows `[startRow, startRow + numRows)` for `mandelbrotSerial`, the rows
`[0, height)` for `mandelbrotThread`. -/
def Env.framed (env : Env) : Prop :=
  (∀ (x0 y0 x1 y1 : F32) (w h startRow numRows mi : Int) (buf : Buffer) (k : Int),
      ¬ (startRow * w ≤ k ∧ k < (startRow + numRows) * w) →
      env.mandelbrotSerial x0 y0 x1 y1 w h startRow numRows mi buf k = buf k)
  ∧ (∀ (n : Int) (x0 y0 x1 y1 : F32) (w h mi : Int) (buf : Buffer) (k : Int),
      ¬ (0 ≤ k ∧ k < h * w) →
      env.mandelbrotThread n x0 y0 x1 y1 w h mi buf k = buf k)

/-- An evaluator writes a value in `[0, maxIterations]` into every cell of the
rows it is asked to compute. -/
def Env.inRange (env : Env) : Prop :=
  (∀ (x0 y0 x1 y1 : F32) (w h startRow numRows mi : Int) (buf : Buffer) (k : Int),
      0 ≤ mi → startRow * w ≤ k → k < (startRow + numRows) * w →
      0 ≤ env.mandelbrotSerial x0 y0 x1 y1 w h startRow numRows mi buf k
      ∧ env.mandelbrotSerial x0 y0 x1 y1 w h startRow numRows mi buf k ≤ mi)
  ∧ (∀ (n : Int) (x0 y0 x1 y1 : F32) (w h mi : Int) (buf : Buffer) (k : Int),
      0 ≤ mi → 0 ≤ k → k < h * w →
      0 ≤ env.mandelbrotThread n x0 y0 x1 y1 w h mi buf k
      ∧ env.mandelbrotThread n x0 y0 x1 y1 w h mi buf k ≤ mi)

/-- A sample environment: both evaluators write `maxIterations` into every
cell of the rows asked and nothing else, the clock reads `k` at its `k`-th
reading, and fresh arrays hold `garbage` in every cell. -/
def sampleEnv (garbage : Int) : Env :=
  { mandelbrotSerial := fun _ _ _ _ w _ startRow numRows mi buf k =>
      if startRow * w ≤ k ∧ k < (startRow + numRows) * w then mi else buf k
    mandelbrotThread := fun _ _ _ _ _ w h mi buf k =>
      if 0 ≤ k ∧ k < h * w then mi else buf k
    currentSeconds := fun k => k
    fresh := fun _ _ => garbage }

/-! ## Lemmas on the verifier -/

theorem scanCells_append (gold result : Buffer) (width : Int) (as bs : List (Nat × Nat))
    (st : VState) :
    scanCells gold result width (as ++ bs) st =
      if (scanCells gold result width as st).2 then scanCells gold result width as st
      else scanCells gold result width bs (scanCells gold result width as st).1 := by
  induction as generalizing st with
  | nil => simp [scanCells]
  | cons c cs ih =>
    simp only [List.cons_append, scanCells]
    by_cases h : (cellStep gold result width c.1 c.2 st).2 = true
    · simp [h]
    · simp [h, ih]

theorem colLoop_eq_scan (gold result : Buffer) (width : Int) (i n j : Nat) (st : VState) :
    colLoop gold result width i n j st =
      scanCells gold result width ((List.range' j n).map (fun j => (i, j))) st := by
  induction n generalizing j st with
  | zero => simp [colLoop, scanCells]
  | succ n ih =>
    simp only [colLoop, List.range'_succ, List.map_cons, scanCells]
    by_cases h : (cellStep gold result width i j st).2 = true
    · simp [h]
    · simp [h, ih]

theorem rowLoop_eq_scan (gold result : Buffer) (width : Int) (n i : Nat) (st : VState) :
    rowLoop gold result width n i st =
      scanCells gold result width ((List.range' i n).flatMap (rowCells width.toNat)) st := by
  induction n generalizing i st with
  | zero => simp [rowLoop, scanCells]
  | succ n ih =>
    simp only [rowLoop, List.range'_succ, List.flatMap_cons, scanCells_append, colLoop_eq_scan,
      rowCells, List.range_eq_range']
    by_cases h : (scanCells gold result width
        (List.map (fun j => (i, j)) (List.range' 0 width.toNat)) st).2 = true
    · simp [h]
    · simp [h, ih, rowCells, List.range_eq_range']

theorem verifyRun_eq_scan (gold result : Buffer) (width height : Int) :
    verifyRun gold result width height =
      scanCells gold result width (gridCells width.toNat height.toNat) verifyInit := by
  simp [verifyRun, rowLoop_eq_scan, gridCells, List.range_eq_range']

/-- What a scan does, in terms of the mismatching cells of the list scanned:
the scan entered with `errLimit = L + 1`. -/
theorem scanCells_spec (gold result : Buffer) (width : Int) (cs : List (Nat × Nat)) :
    ∀ (L : Nat) (st : VState), st.errLimit = (L : Int) + 1 →
      (scanCells gold result width cs st).2
          = decide (L < (cs.filter (differs gold result width)).length)
      ∧ (scanCells gold result width cs st).1.printed
          = st.printed
            ++ ((cs.filter (differs gold result width)).take (L + 1)).map
                (report gold result width)
            ++ (if L < (cs.filter (differs gold result width)).length
                then [Line.ellipsis] else [])
      ∧ (scanCells gold result width cs st).1.ok
          = (st.ok && (cs.filter (differs gold result width)).isEmpty)
      ∧ (scanCells gold result width cs st).1.examined
          = st.examined ++ scanUpTo (differs gold result width) (L + 1) cs := by
  induction cs with
  | nil => intro L st _; simp [scanCells, scanUpTo]
  | cons c cs ih =>
    intro L st hL
    by_cases hd : gold ((c.1 : Int) * width + c.2) = result ((c.1 : Int) * width + c.2)
    · have hf : differs gold result width c = false := by simp [differs, hd]
      have := ih L { st with examined := st.examined ++ [c] } hL
      simpa [scanCells, cellStep, hd, hf, scanUpTo] using this
    · have hf : differs gold result width c = true := by simp [differs, hd]
      cases L with
      | zero =>
        have h0 : st.errLimit - 1 ≤ 0 := by simp at hL; omega
        simp [scanCells, cellStep, hd, hf, scanUpTo, h0, report]
      | succ L =>
        have h0 : ¬ (st.errLimit - 1 ≤ 0) := by push_cast at hL; omega
        have := ih L { st with
          examined := st.examined ++ [c]
          printed := st.printed ++ [report gold result width c]
          ok := false
          errLimit := st.errLimit - 1 } (by push_cast at hL ⊢; omega)
        simpa [scanCells, cellStep, hd, hf, scanUpTo, h0, report] using this

theorem scanUpTo_initial {α : Type} (p : α → Bool) (k : Nat) (cs : List α) :
    scanUpTo p k cs <+: cs := by
  induction cs generalizing k with
  | nil => cases k <;> simp [scanUpTo]
  | cons c cs ih =>
    cases k with
    | zero => simp [scanUpTo]
    | succ k =>
      simp only [scanUpTo]
      split
      · exact (List.prefix_cons_inj c).2 (ih k)
      · exact (List.prefix_cons_inj c).2 (ih (k + 1))

theorem scanUpTo_eq_self {α : Type} (p : α → Bool) (k : Nat) (cs : List α)
    (h : (cs.filter p).length < k) : scanUpTo p k cs = cs := by
  induction cs generalizing k with
  | nil => cases k <;> simp [scanUpTo]
  | cons c cs ih =>
    cases k with
    | zero => omega
    | succ k =>
      by_cases hp : p c = true
      · simp only [List.filter_cons, hp, if_true, List.length_cons] at h
        simp [scanUpTo, hp, ih k (by omega)]
      · simp only [List.filter_cons, hp] at h
        simp [scanUpTo, hp, ih (k + 1) (by simpa using h)]

theorem scanUpTo_filter {α : Type} (p : α → Bool) (k : Nat) (cs : List α) :
    (scanUpTo p k cs).filter p = (cs.filter p).take k := by
  induction cs generalizing k with
  | nil => cases k <;> simp [scanUpTo]
  | cons c cs ih =>
    cases k with
    | zero => simp [scanUpTo]
    | succ k =>
      by_cases hp : p c = true
      · simp [scanUpTo, hp, ih k]
      · simp [scanUpTo, hp, ih (k + 1)]

theorem scanUpTo_getLast {α : Type} (p : α → Bool) (k : Nat) (cs : List α)
    (h : k < (cs.filter p).length) :
    (scanUpTo p (k + 1) cs).getLast? = (cs.filter p)[k]? := by
  induction cs generalizing k with
  | nil => simp at h
  | cons c cs ih =>
    by_cases hp : p c = true
    · simp only [List.filter_cons, hp, if_true, List.length_cons] at h
      cases k with
      | zero => simp [scanUpTo, hp]
      | succ k =>
        have hk : k < (cs.filter p).length := by omega
        have hne : scanUpTo p (k + 1) cs ≠ [] := by
          intro h0
          have := ih k hk
          rw [h0, List.getElem?_eq_getElem hk] at this
          simp at this
        simp only [scanUpTo, hp, if_true, List.filter_cons, List.getElem?_cons_succ]
        rw [← ih k hk, List.getLast?_cons]
        cases hl : (scanUpTo p (k + 1) cs).getLast? with
        | none => simp [List.getLast?_eq_none_iff] at hl; exact absurd hl hne
        | some a => simp
    · simp only [List.filter_cons, hp] at h
      have hk : k < (cs.filter p).length := by simpa using h
      have hne : scanUpTo p (k + 1) cs ≠ [] := by
        intro h0
        have := ih k hk
        rw [h0, List.getElem?_eq_getElem hk] at this
        simp at this
      have hp' : p c = false := by simpa using hp
      simp only [scanUpTo, hp', List.filter_cons, Bool.false_eq_true, if_false]
      rw [← ih k hk, List.getLast?_cons]
      cases hl : (scanUpTo p (k + 1) cs).getLast? with
      | none => simp [List.getLast?_eq_none_iff] at hl; exact absurd hl hne
      | some a => simp

theorem mem_gridCells (width height : Nat) (c : Nat × Nat) :
    c ∈ gridCells width height ↔ c.1 < height ∧ c.2 < width := by
  obtain ⟨i, j⟩ := c
  simp only [gridCells, rowCells, List.mem_flatMap, List.mem_range, List.mem_map, Prod.mk.injEq]
  constructor
  · rintro ⟨a, ha, b, hb, rfl, rfl⟩
    exact ⟨ha, hb⟩
  · rintro ⟨hi, hj⟩
    exact ⟨i, hi, j, hj, rfl, rfl⟩

/-- The linear index `i * width + j` of a grid cell lies inside a buffer of
`width * height` cells. -/
theorem gridCells_index_bounds (width height : Int) (c : Nat × Nat)
    (hc : c ∈ gridCells width.toNat height.toNat) :
    0 ≤ (c.1 : Int) * width + c.2 ∧ (c.1 : Int) * width + c.2 < width * height := by
  rw [mem_gridCells] at hc
  obtain ⟨h1, h2⟩ := hc
  have hw : 0 < width := by omega
  have hh : (c.1 : Int) + 1 ≤ height := by omega
  have hj : (c.2 : Int) < width := by omega
  have hi : (0 : Int) ≤ c.1 := Int.ofNat_nonneg _
  constructor
  · positivity
  · nlinarith

/-- Row-major order is the order of the linear index `i * width + j`. -/
theorem gridCells_pairwise (width height : Int) :
    (gridCells width.toNat height.toNat).Pairwise
      (fun a b => (a.1 : Int) * width + a.2 < (b.1 : Int) * width + b.2) := by
  unfold gridCells
  rw [List.pairwise_flatMap]
  constructor
  · intro i _
    simp only [rowCells, List.pairwise_map]
    exact (List.pairwise_lt_range _).imp (by intro a b hab; omega)
  · refine (List.pairwise_lt_range _).imp ?_
    intro a b hab x hx y hy
    simp only [rowCells, List.mem_map, List.mem_range] at hx hy
    obtain ⟨j, hj, rfl⟩ := hx
    obtain ⟨j', _, rfl⟩ := hy
    simp only []
    have hw : 0 < width := by omega
    have h1 : (j : Int) < width := by omega
    have h2 : (a : Int) + 1 ≤ b := by omega
    have h3 : (0 : Int) ≤ j' := Int.ofNat_nonneg _
    nlinarith

/-- The run of `verifyResult` in terms of the mismatching cells of the grid. -/
theorem verifyRun_spec (gold result : Buffer) (width height : Int) :
    (verifyRun gold result width height).2
        = decide (4 < (mismatchCells gold result width height).length)
    ∧ (verifyRun gold result width height).1.printed
        = ((mismatchCells gold result width height).take 5).map (report gold result width)
          ++ (if 4 < (mismatchCells gold result width height).length
              then [Line.ellipsis] else [])
    ∧ (verifyRun gold result width height).1.ok
        = (mismatchCells gold result width height).isEmpty
    ∧ (verifyRun gold result width height).1.examined
        = scanUpTo (differs gold result width) 5
            (gridCells width.toNat height.toNat) := by
  have h := scanCells_spec gold result width (gridCells width.toNat height.toNat) 4
    verifyInit (by simp [verifyInit])
  rw [← verifyRun_eq_scan] at h
  simpa [verifyInit, mismatchCells] using h

theorem filter_isReport_map_report (gold result : Buffer) (width : Int)
    (cs : List (Nat × Nat)) :
    ((cs.map (report gold result width)).filter Line.isReport)
      = cs.map (report gold result width) := by
  induction cs with
  | nil => rfl
  | cons c cs ih => simp [report, Line.isReport, ih]

theorem ellipsis_not_mem_map_report (gold result : Buffer) (width : Int)
    (cs : List (Nat × Nat)) : Line.ellipsis ∉ cs.map (report gold result width) := by
  simp [report]

/-! ## The verifier: main results -/

/-- The value of `verifyResult`: `true` exactly when the buffers agree on the
grid. -/
theorem verifyResult_iff (gold result : Buffer) (width height : Int) :
    verifyResult gold result width height = true ↔
      ∀ i j : Int, 0 ≤ i → i < height → 0 ≤ j → j < width →
        gold (i * width + j) = result (i * width + j) := by
  obtain ⟨-, -, hok, -⟩ := verifyRun_spec gold result width height
  rw [verifyResult, hok, List.isEmpty_iff, mismatchCells, List.filter_eq_nil_iff]
  constructor
  · intro h i j hi0 hi hj0 hj
    have hc : (i.toNat, j.toNat) ∈ gridCells width.toNat height.toNat := by
      rw [mem_gridCells]
      constructor <;> simp only [] <;> omega
    have := h _ hc
    simpa [differs, Int.toNat_of_nonneg hi0, Int.toNat_of_nonneg hj0] using this
  · intro h c hc
    rw [mem_gridCells] at hc
    have := h c.1 c.2 (Int.ofNat_nonneg _) (by omega) (Int.ofNat_nonneg _) (by omega)
    simp [differs, this]

/-- C1. `verifyResult` returns `true` exactly when the two buffers agree on
every cell `i * width + j` of the `width x height` grid; a run that leaves
through the early `return` returns `false`; and every cell compared lies
inside a buffer of `width * height` integers.  (For a negative `width` or
`height` the grid is empty and both sides of the equivalence hold.) -/
theorem verifyResult_true_iff_equal (gold result : Buffer) (width height : Int) :
    (verifyResult gold result width height = true ↔
      ∀ i j : Int, 0 ≤ i → i < height → 0 ≤ j → j < width →
        gold (i * width + j) = result (i * width + j))
    ∧ ((verifyRun gold result width height).2 = true →
        verifyResult gold result width height = false)
    ∧ (∀ c ∈ (verifyRun gold result width height).1.examined,
        0 ≤ (c.1 : Int) * width + c.2 ∧ (c.1 : Int) * width + c.2 < width * height) := by
  obtain ⟨hflag, -, hok, hex⟩ := verifyRun_spec gold result width height
  refine ⟨verifyResult_iff gold result width height, ?_, ?_⟩
  · intro hearly
    rw [hflag, decide_eq_true_eq] at hearly
    rw [verifyResult, hok]
    cases hm : mismatchCells gold result width height with
    | nil => simp [hm] at hearly
    | cons a l => rfl
  · intro c hc
    rw [hex] at hc
    exact gridCells_index_bounds width height c
      ((scanUpTo_initial _ _ _).subset hc)

/-- Instance of C1 on a `3 x 2` grid whose first five cells differ: the scan
leaves early and returns `false`. -/
theorem verifyResult_true_iff_equal_witness :
    (verifyRun (fun k => if k < 5 then 1 else 0) (fun _ => 0) 3 2).2 = true
    ∧ verifyResult (fun k => if k < 5 then 1 else 0) (fun _ => 0) 3 2 = false :=
  ⟨by decide,
   (verifyResult_true_iff_equal (fun k => if k < 5 then 1 else 0) (fun _ => 0) 3 2).2.1
     (by decide)⟩

/-- C2. The list `mismatchCells` holds exactly the cells of the grid at which
the buffers differ, in row-major order, that is strictly increasing in
`row * width + col`.  With `n` its length, the mismatch reports printed by
`verifyResult` are those of its first `min n 5` cells, in that order, each
carrying row, column, `gold` value and `result` value of its cell; there are
exactly `min n 5` of them. -/
theorem verifyResult_reports (gold result : Buffer) (width height : Int) :
    (∀ c : Nat × Nat, c ∈ mismatchCells gold result width height ↔
        ((c.1 : Int) < height ∧ (c.2 : Int) < width
          ∧ gold ((c.1 : Int) * width + c.2) ≠ result ((c.1 : Int) * width + c.2)))
    ∧ (mismatchCells gold result width height).Pairwise
        (fun a b => (a.1 : Int) * width + a.2 < (b.1 : Int) * width + b.2)
    ∧ (verifyRun gold result width height).1.printed.filter Line.isReport
        = ((mismatchCells gold result width height).take 5).map
            (fun c => Line.mismatch c.1 c.2 (gold ((c.1 : Int) * width + c.2))
              (result ((c.1 : Int) * width + c.2)))
    ∧ ((verifyRun gold result width height).1.printed.filter Line.isReport).length
        = min (mismatchCells gold result width height).length 5
    ∧ ((mismatchCells gold result width height).take 5).Pairwise
        (fun a b => (a.1 : Int) * width + a.2 < (b.1 : Int) * width + b.2) := by
  obtain ⟨-, hpr, -, -⟩ := verifyRun_spec gold result width height
  have h1 : (verifyRun gold result width height).1.printed.filter Line.isReport
      = ((mismatchCells gold result width height).take 5).map (report gold result width) := by
    rw [hpr, List.filter_append, filter_isReport_map_report]
    split <;> simp [Line.isReport]
  have h2 : (mismatchCells gold result width height).Pairwise
      (fun a b => (a.1 : Int) * width + a.2 < (b.1 : Int) * width + b.2) :=
    (gridCells_pairwise width height).sublist (List.filter_sublist _)
  refine ⟨?_, h2, h1, ?_, h2.sublist (List.take_sublist _ _)⟩
  · intro c
    simp only [mismatchCells, List.mem_filter, mem_gridCells, differs, decide_eq_true_eq]
    constructor
    · rintro ⟨⟨ha, hb⟩, hne⟩
      exact ⟨by omega, by omega, hne⟩
    · rintro ⟨ha, hb, hne⟩
      exact ⟨⟨by omega, by omega⟩, hne⟩
  · rw [h1, List.length_map, List.length_take, Nat.min_comm]

/-- Instance of C2: on a `3 x 2` grid whose cells all differ, five reports are
printed, for the cells `(0,0)` to `(1,1)`. -/
theorem verifyResult_reports_witness :
    (verifyRun (fun _ => 1) (fun _ => 0) 3 2).1.printed.filter Line.isReport
      = [Line.mismatch 0 0 1 0, Line.mismatch 0 1 1 0, Line.mismatch 0 2 1 0,
          Line.mismatch 1 0 1 0, Line.mismatch 1 1 1 0] :=
  (verifyResult_reports (fun _ => 1) (fun _ => 0) 3 2).2.2.1

/-- C8, as the code has it.  With fewer than five mismatching cells every
mismatch is reported, no marker is printed, the whole grid is scanned and the
function does not leave early.  With five or more, the five first are
reported, the marker is printed once, right after the fifth report, and the
cells examined are the grid up to and including the fifth mismatching cell. -/
theorem verifyResult_truncates_at_limit (gold result : Buffer) (width height : Int) :
    ((mismatchCells gold result width height).length < 5 →
        (verifyRun gold result width height).1.printed
            = (mismatchCells gold result width height).map (report gold result width)
        ∧ Line.ellipsis ∉ (verifyRun gold result width height).1.printed
        ∧ (verifyRun gold result width height).1.examined
            = gridCells width.toNat height.toNat
        ∧ (verifyRun gold result width height).2 = false)
    ∧ (5 ≤ (mismatchCells gold result width height).length →
        (verifyRun gold result width height).1.printed
            = ((mismatchCells gold result width height).take 5).map
                (report gold result width) ++ [Line.ellipsis]
        ∧ (verifyRun gold result width height).1.printed.count Line.ellipsis = 1
        ∧ (verifyRun gold result width height).2 = true
        ∧ (verifyRun gold result width height).1.examined
            <+: gridCells width.toNat height.toNat
        ∧ (verifyRun gold result width height).1.examined.getLast?
            = (mismatchCells gold result width height)[4]?
        ∧ (verifyRun gold result width height).1.examined.filter (differs gold result width)
            = (mismatchCells gold result width height).take 5) := by
  obtain ⟨hflag, hpr, -, hex⟩ := verifyRun_spec gold result width height
  constructor
  · intro hn
    have h4 : ¬ 4 < (mismatchCells gold result width height).length := by omega
    have hpr' : (verifyRun gold result width height).1.printed
        = (mismatchCells gold result width height).map (report gold result width) := by
      rw [hpr, if_neg h4, List.append_nil, List.take_of_length_le (by omega)]
    refine ⟨hpr', ?_, ?_, ?_⟩
    · rw [hpr']
      exact ellipsis_not_mem_map_report _ _ _ _
    · rw [hex]
      exact scanUpTo_eq_self _ _ _ hn
    · rw [hflag]
      simpa using h4
  · intro hn
    have h4 : 4 < (mismatchCells gold result width height).length := by omega
    have hpr' : (verifyRun gold result width height).1.printed
        = ((mismatchCells gold result width height).take 5).map
            (report gold result width) ++ [Line.ellipsis] := by
      rw [hpr, if_pos h4]
    refine ⟨hpr', ?_, ?_, ?_, ?_, ?_⟩
    · rw [hpr', List.count_append,
        List.count_eq_zero.2 (ellipsis_not_mem_map_report _ _ _ _)]
      simp
    · rw [hflag]
      simpa using h4
    · rw [hex]
      exact scanUpTo_initial _ _ _
    · rw [hex]
      exact scanUpTo_getLast _ 4 _ h4
    · rw [hex]
      exact scanUpTo_filter _ _ _

/-- Instance of C8 (as the code has it): a `3 x 2` grid with two mismatching
cells is scanned whole, and one with six stops after the fifth. -/
theorem verifyResult_truncates_at_limit_witness :
    ((verifyRun (fun k => if k < 2 then 1 else 0) (fun _ => 0) 3 2).1.examined
        = gridCells 3 2
      ∧ (verifyRun (fun k => if k < 2 then 1 else 0) (fun _ => 0) 3 2).2 = false)
    ∧ ((verifyRun (fun _ => 1) (fun _ => 0) 3 2).1.printed.count Line.ellipsis = 1
      ∧ (verifyRun (fun _ => 1) (fun _ => 0) 3 2).1.examined.getLast? = some (1, 1)) :=
  ⟨let h := (verifyResult_truncates_at_limit (fun k => if k < 2 then 1 else 0)
      (fun _ => 0) 3 2).1 (by decide)
   ⟨h.2.2.1, h.2.2.2⟩,
   let h := (verifyResult_truncates_at_limit (fun _ => 1) (fun _ => 0) 3 2).2 (by decide)
   ⟨h.2.1, h.2.2.2.2.1⟩⟩

/-- C8 as stated fails at exactly five mismatching cells: on a `3 x 2` grid
whose first five cells differ, the marker is printed although nothing was left
out, and the sixth cell is never examined. -/
theorem verifyResult_five_mismatches_truncated :
    (mismatchCells (fun k => if k < 5 then 1 else 0) (fun _ => 0) 3 2).length = 5
    ∧ Line.ellipsis ∈ (verifyRun (fun k => if k < 5 then 1 else 0) (fun _ => 0) 3 2).1.printed
    ∧ (1, 2) ∉ (verifyRun (fun k => if k < 5 then 1 else 0) (fun _ => 0) 3 2).1.examined
    ∧ (1, 2) ∈ gridCells 3 2 := by
  decide

/-! ## Binary32 rounding -/

theorem roundEven_le (x : ℚ) (n : Int) (h : x ≤ n) : roundEven x ≤ n := by
  unfold roundEven
  rcases eq_or_lt_of_le h with heq | hlt
  · subst heq
    simp
  · have hlt' : ⌊x⌋ < n := Int.floor_lt.2 hlt
    split_ifs <;> omega

theorem le_roundEven (x : ℚ) (n : Int) (h : (n : ℚ) ≤ x) : n ≤ roundEven x := by
  unfold roundEven
  have hf : n ≤ ⌊x⌋ := Int.le_floor.2 h
  split_ifs <;> omega

theorem roundEven_mono (x y : ℚ) (h : x ≤ y) : roundEven x ≤ roundEven y := by
  have hf : ⌊x⌋ ≤ ⌊y⌋ := Int.floor_mono h
  rcases eq_or_lt_of_le hf with heq | hlt
  · unfold roundEven
    rw [← heq]
    have : x - ⌊x⌋ ≤ y - ⌊x⌋ := by linarith
    split_ifs <;> first | omega | linarith
  · have h1 : roundEven x ≤ ⌊x⌋ + 1 := by
      unfold roundEven
      split_ifs <;> omega
    have h2 : ⌊y⌋ ≤ roundEven y := le_roundEven y _ (Int.floor_le y)
    omega

theorem roundEven_eq (x : ℚ) (m : Int) (h : |x - m| < 1 / 2) : roundEven x = m := by
  rw [abs_lt] at h
  obtain ⟨h1, h2⟩ := h
  unfold roundEven
  by_cases hx : (m : ℚ) ≤ x
  · have hfl : ⌊x⌋ = m := by
      rw [Int.floor_eq_iff]
      constructor
      · exact hx
      · linarith
    rw [hfl, if_pos (by linarith)]
  · push_neg at hx
    have hfl : ⌊x⌋ = m - 1 := by
      rw [Int.floor_eq_iff]
      push_cast
      constructor <;> linarith
    rw [hfl]
    push_cast
    rw [if_neg (by linarith), if_pos (by linarith)]
    ring

theorem ulp_pos (a : ℚ) : 0 < ulp a := by
  unfold ulp
  positivity

theorem roundMag_nonneg (a : ℚ) (h : 0 ≤ a) : 0 ≤ roundMag a := by
  unfold roundMag
  have h1 : (0 : ℚ) ≤ a / ulp a := div_nonneg h (ulp_pos a).le
  have h2 : (0 : Int) ≤ roundEven (a / ulp a) := le_roundEven _ 0 (by simpa using h1)
  exact mul_nonneg (by exact_mod_cast h2) (ulp_pos a).le

theorem roundMag_zero : roundMag 0 = 0 := by
  simp [roundMag, roundEven]

/-- The value of `roundMag` from the binade and the nearest multiple of the
spacing. -/
theorem roundMag_eq (a : ℚ) (e m : Int) (he : -126 ≤ e) (h1 : (2 : ℚ) ^ e ≤ a)
    (h2 : a < (2 : ℚ) ^ (e + 1)) (hm : |a / (2 : ℚ) ^ (e - 23) - m| < 1 / 2) :
    roundMag a = m * (2 : ℚ) ^ (e - 23) := by
  have ha : 0 < a := lt_of_lt_of_le (by positivity) h1
  have hlog : Int.log 2 a = e := by
    apply le_antisymm
    · have := (Int.lt_zpow_iff_log_lt (b := 2) (by norm_num) ha (x := e + 1)).1
        (by exact_mod_cast h2)
      omega
    · exact (Int.zpow_le_iff_le_log (b := 2) (by norm_num) ha).1 (by exact_mod_cast h1)
  have hu : ulp a = (2 : ℚ) ^ (e - 23) := by
    unfold ulp
    rw [hlog, max_eq_left he]
  unfold roundMag
  rw [hu, roundEven_eq _ m hm]

/-- The value of `roundMag` below the smallest normal number. -/
theorem roundMag_eq_subnormal (a : ℚ) (m : Int) (h0 : 0 < a) (h2 : a < (2 : ℚ) ^ (-126 : Int))
    (hm : |a / (2 : ℚ) ^ (-149 : Int) - m| < 1 / 2) :
    roundMag a = m * (2 : ℚ) ^ (-149 : Int) := by
  have hlog : Int.log 2 a < -126 :=
    (Int.lt_zpow_iff_log_lt (b := 2) (by norm_num) h0 (x := -126)).1 (by exact_mod_cast h2)
  have hu : ulp a = (2 : ℚ) ^ (-149 : Int) := by
    unfold ulp
    rw [max_eq_right hlog.le]
    norm_num
  unfold roundMag
  rw [hu, roundEven_eq _ m hm]

theorem two_zpow_split (e : Int) (k : Nat) :
    (((2 : Int) ^ k : Int) : ℚ) * (2 : ℚ) ^ (e - k) = (2 : ℚ) ^ e := by
  have h : (((2 : Int) ^ k : Int) : ℚ) = (2 : ℚ) ^ (k : Int) := by
    rw [zpow_natCast]
    push_cast
    rfl
  rw [h, ← zpow_add₀ (by norm_num : (2 : ℚ) ≠ 0)]
  congr 1
  ring

theorem roundMag_mono (a b : ℚ) (ha : 0 ≤ a) (hab : a ≤ b) : roundMag a ≤ roundMag b := by
  rcases eq_or_lt_of_le ha with h0 | hpos
  · subst h0
    rw [roundMag_zero]
    exact roundMag_nonneg b hab
  have hb : 0 < b := lt_of_lt_of_le hpos hab
  have hlog : Int.log 2 a ≤ Int.log 2 b := Int.log_mono_right hpos hab
  have hE : max (Int.log 2 a) (-126) ≤ max (Int.log 2 b) (-126) := max_le_max hlog le_rfl
  rcases eq_or_lt_of_le hE with heq | hlt
  · have hu : ulp a = ulp b := by
      unfold ulp
      rw [heq]
    unfold roundMag
    rw [hu]
    have hdiv : a / ulp b ≤ b / ulp b := div_le_div_of_nonneg_right hab (ulp_pos b).le
    have := roundEven_mono _ _ hdiv
    exact mul_le_mul_of_nonneg_right (by exact_mod_cast this) (ulp_pos b).le
  · -- different binades: the power of two between them separates the roundings
    set ea := max (Int.log 2 a) (-126) with hea
    set eb := max (Int.log 2 b) (-126) with heb
    have hebl : eb = Int.log 2 b := by
      have h126 : -126 ≤ ea := le_max_right _ _
      rw [heb]
      apply max_eq_left
      by_contra hcon
      push_neg at hcon
      have : eb = -126 := by rw [heb]; exact max_eq_right hcon.le
      omega
    have hpow_b : (2 : ℚ) ^ eb ≤ b := by
      rw [hebl]
      exact_mod_cast Int.zpow_log_le_self (b := 2) (by norm_num) hb
    have hpow_a : a < (2 : ℚ) ^ (ea + 1) := by
      have h1 : a < (2 : ℚ) ^ (Int.log 2 a + 1) := by
        exact_mod_cast Int.lt_zpow_succ_log_self (b := 2) (by norm_num) a
      have h2 : (2 : ℚ) ^ (Int.log 2 a + 1) ≤ (2 : ℚ) ^ (ea + 1) :=
        zpow_le_zpow_right₀ (by norm_num) (by have := le_max_left (Int.log 2 a) (-126); omega)
      exact lt_of_lt_of_le h1 h2
    have hmid : (2 : ℚ) ^ (ea + 1) ≤ (2 : ℚ) ^ eb :=
      zpow_le_zpow_right₀ (by norm_num) (by omega)
    have hua : ulp a = (2 : ℚ) ^ (ea - 23) := rfl
    have hub : ulp b = (2 : ℚ) ^ (eb - 23) := rfl
    have hA : roundMag a ≤ (2 : ℚ) ^ (ea + 1) := by
      unfold roundMag
      rw [hua]
      have hq : a / (2 : ℚ) ^ (ea - 23) ≤ ((2 ^ 24 : Int) : ℚ) := by
        rw [div_le_iff₀ (by positivity)]
        have : ((2 ^ 24 : Int) : ℚ) * (2 : ℚ) ^ (ea - 23) = (2 : ℚ) ^ (ea + 1) := by
          have := two_zpow_split (ea + 1) 24
          rw [show ea + 1 - ((24 : Nat) : Int) = ea - 23 by push_cast; ring] at this
          exact this
        rw [this]
        exact hpow_a.le
      have := roundEven_le _ _ hq
      calc ((roundEven (a / (2 : ℚ) ^ (ea - 23)) : Int) : ℚ) * (2 : ℚ) ^ (ea - 23)
          ≤ ((2 ^ 24 : Int) : ℚ) * (2 : ℚ) ^ (ea - 23) :=
            mul_le_mul_of_nonneg_right (by exact_mod_cast this) (by positivity)
        _ = (2 : ℚ) ^ (ea + 1) := by
          have := two_zpow_split (ea + 1) 24
          rw [show ea + 1 - ((24 : Nat) : Int) = ea - 23 by push_cast; ring] at this
          exact this
    have hB : (2 : ℚ) ^ eb ≤ roundMag b := by
      unfold roundMag
      rw [hub]
      have hq : ((2 ^ 23 : Int) : ℚ) ≤ b / (2 : ℚ) ^ (eb - 23) := by
        rw [le_div_iff₀ (by positivity)]
        have : ((2 ^ 23 : Int) : ℚ) * (2 : ℚ) ^ (eb - 23) = (2 : ℚ) ^ eb := by
          have := two_zpow_split eb 23
          exact this
        rw [this]
        exact hpow_b
      have := le_roundEven _ _ hq
      calc (2 : ℚ) ^ eb = ((2 ^ 23 : Int) : ℚ) * (2 : ℚ) ^ (eb - 23) := by
            exact (two_zpow_split eb 23).symm
        _ ≤ ((roundEven (b / (2 : ℚ) ^ (eb - 23)) : Int) : ℚ) * (2 : ℚ) ^ (eb - 23) :=
            mul_le_mul_of_nonneg_right (by exact_mod_cast this) (by positivity)
    exact hA.trans (hmid.trans hB)

theorem F32.ofRat_zero : F32.ofRat 0 = F32.fin 0 := by
  simp [F32.ofRat, roundMag_zero]

theorem F32.ofRat_pos_eq (q : ℚ) (e m : Int) (he : -126 ≤ e) (h1 : (2 : ℚ) ^ e ≤ q)
    (h2 : q < (2 : ℚ) ^ (e + 1)) (hm : |q / (2 : ℚ) ^ (e - 23) - m| < 1 / 2)
    (hov : (m : ℚ) * (2 : ℚ) ^ (e - 23) < 2 ^ 128) :
    F32.ofRat q = F32.fin (m * (2 : ℚ) ^ (e - 23)) := by
  have hq : 0 ≤ q := le_trans (by positivity) h1
  unfold F32.ofRat
  rw [if_pos hq, roundMag_eq q e m he h1 h2 hm, if_pos hov]

theorem F32.ofRat_neg_eq (q : ℚ) (e m : Int) (he : -126 ≤ e) (h1 : (2 : ℚ) ^ e ≤ -q)
    (h2 : -q < (2 : ℚ) ^ (e + 1)) (hm : |-q / (2 : ℚ) ^ (e - 23) - m| < 1 / 2)
    (hov : (m : ℚ) * (2 : ℚ) ^ (e - 23) < 2 ^ 128) :
    F32.ofRat q = F32.fin (-(m * (2 : ℚ) ^ (e - 23))) := by
  have hq : ¬ 0 ≤ q := by
    have : 0 < -q := lt_of_lt_of_le (by positivity) h1
    linarith
  unfold F32.ofRat
  rw [if_neg hq, roundMag_eq (-q) e m he h1 h2 hm, if_pos hov]

theorem F32.ofRat_ne_nan (q : ℚ) : F32.ofRat q ≠ F32.nan := by
  unfold F32.ofRat
  split_ifs <;> simp

theorem F32.ofRat_mono (p q : ℚ) (h : p ≤ q) : F32.le (F32.ofRat p) (F32.ofRat q) := by
  unfold F32.ofRat
  by_cases hp : 0 ≤ p
  · have hq : 0 ≤ q := hp.trans h
    have hm := roundMag_mono p q hp h
    rw [if_pos hp, if_pos hq]
    split_ifs with h1 h2 h2
    · exact hm
    · trivial
    · exact absurd (lt_of_le_of_lt hm h2) h1
    · trivial
  · push_neg at hp
    rw [if_neg (not_le.2 hp)]
    by_cases hq : 0 ≤ q
    · rw [if_pos hq]
      have h1 := roundMag_nonneg (-p) (by linarith)
      have h2 := roundMag_nonneg q hq
      split_ifs
      · show -roundMag (-p) ≤ roundMag q
        linarith
      · trivial
      · trivial
      · trivial
    · push_neg at hq
      have hm := roundMag_mono (-q) (-p) (by linarith) (by linarith)
      rw [if_neg (not_le.2 hq)]
      split_ifs with h1 h2 h2
      · show -roundMag (-p) ≤ -roundMag (-q)
        linarith
      · exact absurd (lt_of_le_of_lt hm h1) h2
      · trivial
      · trivial

theorem F32.lt_imp_le (x y : F32) (h : F32.lt x y) : F32.le x y := by
  cases x <;> cases y <;> simp_all [F32.lt, F32.le]
  exact h.le

theorem F32.not_lt_of_le (x y : F32) (h : F32.le x y) : ¬ F32.lt y x := by
  cases x <;> cases y <;> simp_all [F32.lt, F32.le]

theorem F32.ninf_le (x : F32) (h : x ≠ F32.nan) : F32.le F32.ninf x := by
  cases x <;> simp_all [F32.le]

theorem F32.le_pinf (x : F32) (h : x ≠ F32.nan) : F32.le x F32.pinf := by
  cases x <;> simp_all [F32.le]

/-- Adding a finite shift keeps the order. -/
theorem F32.add_fin_mono (x y : F32) (t : ℚ) (h : F32.le x y) :
    F32.le (F32.add x (F32.fin t)) (F32.add y (F32.fin t)) := by
  cases x <;> cases y <;> simp only [F32.le] at h
  · exact F32.ofRat_mono _ _ (by linarith)
  · exact F32.le_pinf _ (F32.ofRat_ne_nan _)
  · trivial
  · exact F32.ninf_le _ (F32.ofRat_ne_nan _)
  · trivial
  · trivial

/-- Multiplying by a positive finite scale keeps the order. -/
theorem F32.mul_fin_mono (x y : F32) (s : ℚ) (hs : 0 < s) (h : F32.le x y) :
    F32.le (F32.mul x (F32.fin s)) (F32.mul y (F32.fin s)) := by
  have hs0 : s ≠ 0 := ne_of_gt hs
  cases x <;> cases y <;> simp only [F32.le] at h
  · exact F32.ofRat_mono _ _ (mul_le_mul_of_nonneg_right h hs.le)
  · simp only [F32.mul, if_neg hs0, if_pos hs]
    exact F32.le_pinf _ (F32.ofRat_ne_nan _)
  · simp only [F32.mul, if_neg hs0, if_pos hs]
    trivial
  · simp only [F32.mul, if_neg hs0, if_pos hs]
    exact F32.ninf_le _ (F32.ofRat_ne_nan _)
  · simp only [F32.mul, if_neg hs0, if_pos hs]
    trivial
  · simp only [F32.mul, if_neg hs0, if_pos hs]
    trivial

/-- Under a scale that is zero, negative or minus infinity the products are
in reverse order, unless one of them is a NaN. -/
theorem F32.mul_nonpos_anti (x y scale : F32) (hs : F32.le scale (F32.fin 0))
    (h : F32.lt x y) :
    F32.mul x scale = F32.nan ∨ F32.mul y scale = F32.nan
      ∨ F32.le (F32.mul y scale) (F32.mul x scale) := by
  cases scale with
  | nan => simp [F32.le] at hs
  | pinf => simp [F32.le] at hs
  | ninf =>
    cases x <;> cases y <;> simp only [F32.lt] at h
    · rename_i a b
      simp only [F32.mul]
      by_cases ha : a = 0
      · simp [ha]
      · by_cases hb : b = 0
        · simp [hb]
        · right; right
          rw [if_neg ha, if_neg hb]
          by_cases ha' : 0 < a
          · have hb' : 0 < b := ha'.trans h
            rw [if_pos ha', if_pos hb']
            trivial
          · rw [if_neg ha']
            split_ifs <;> trivial
    · rename_i a
      simp only [F32.mul]
      by_cases ha : a = 0
      · simp [ha]
      · right; right
        rw [if_neg ha]
        split_ifs <;> trivial
    · rename_i b
      simp only [F32.mul]
      by_cases hb : b = 0
      · simp [hb]
      · right; right
        rw [if_neg hb]
        split_ifs <;> trivial
    · right; right
      trivial
  | fin s =>
    simp only [F32.le] at hs
    rcases eq_or_lt_of_le hs with h0 | hneg
    · subst h0
      cases x <;> cases y <;> simp only [F32.lt] at h
      · right; right
        simp only [F32.mul, mul_zero]
        exact F32.ofRat_mono _ _ le_rfl
      · right; left
        simp [F32.mul]
      · left
        simp [F32.mul]
      · left
        simp [F32.mul]
    · have hs0 : s ≠ 0 := ne_of_lt hneg
      have hs1 : ¬ 0 < s := not_lt.2 hneg.le
      right; right
      cases x <;> cases y <;> simp only [F32.lt] at h
      · exact F32.ofRat_mono _ _ (mul_le_mul_of_nonpos_right h.le hneg.le)
      · simp only [F32.mul, if_neg hs0, if_neg hs1]
        exact F32.ninf_le _ (F32.ofRat_ne_nan _)
      · simp only [F32.mul, if_neg hs0, if_neg hs1]
        exact F32.le_pinf _ (F32.ofRat_ne_nan _)
      · simp only [F32.mul, if_neg hs0, if_neg hs1]
        trivial

/-- Adding any shift to two values in reverse order, or to a NaN, does not
give values in order. -/
theorem F32.add_not_lt (a b sh : F32)
    (h : a = F32.nan ∨ b = F32.nan ∨ F32.le b a) :
    ¬ F32.lt (F32.add a sh) (F32.add b sh) := by
  rcases h with h | h | h
  · subst h
    cases sh <;> simp [F32.add, F32.lt]
  · subst h
    cases sh <;> cases a <;> simp [F32.add, F32.lt]
  · cases sh with
    | fin t => exact F32.not_lt_of_le _ _ (F32.add_fin_mono _ _ t h)
    | pinf => cases a <;> cases b <;> simp [F32.add, F32.lt]
    | ninf => cases a <;> cases b <;> simp [F32.add, F32.lt]
    | nan => cases a <;> cases b <;> simp [F32.add, F32.lt]

theorem F32.mul_fin_one (x : F32) (h : x.representable) : F32.mul x (F32.fin 1) = x := by
  cases x with
  | fin q =>
    simp only [F32.representable] at h
    simp only [F32.mul, mul_one, h]
  | pinf => simp [F32.mul]
  | ninf => simp [F32.mul]
  | nan => simp [F32.mul]

theorem F32.add_fin_zero (x : F32) (h : x.representable) : F32.add x (F32.fin 0) = x := by
  cases x with
  | fin q =>
    simp only [F32.representable] at h
    simp only [F32.add, add_zero, h]
  | pinf => simp [F32.add]
  | ninf => simp [F32.add]
  | nan => simp [F32.add]

/-! ### The binary32 values of the literals of `main`, and the products and
sums that `scaleAndShift` computes from them -/

theorem mul_zero_one :
    F32.mul (F32.fin 0) (F32.fin 1) = F32.fin 0 := by
  show F32.ofRat (0 * 1) = _
  rw [show ((0 * 1) : ℚ) = 0 by norm_num]
  exact F32.ofRat_zero

theorem mul_one_one :
    F32.mul (F32.fin 1) (F32.fin 1) = F32.fin 1 := by
  show F32.ofRat (1 * 1) = _
  exact (F32.ofRat_pos_eq (1 * 1) (0) 8388608 (by norm_num) (by norm_num) (by norm_num)
    (by rw [abs_lt]; constructor <;> norm_num) (by norm_num)).trans
    (congrArg F32.fin (by norm_num))

theorem add_zero_big :
    F32.add (F32.fin 0) (F32.fin 1073741824) = F32.fin 1073741824 := by
  show F32.ofRat (0 + 1073741824) = _
  exact (F32.ofRat_pos_eq (0 + 1073741824) (30) 8388608 (by norm_num) (by norm_num) (by norm_num)
    (by rw [abs_lt]; constructor <;> norm_num) (by norm_num)).trans
    (congrArg F32.fin (by norm_num))

theorem add_one_big :
    F32.add (F32.fin 1) (F32.fin 1073741824) = F32.fin 1073741824 := by
  show F32.ofRat (1 + 1073741824) = _
  exact (F32.ofRat_pos_eq (1 + 1073741824) (30) 8388608 (by norm_num) (by norm_num) (by norm_num)
    (by rw [abs_lt]; constructor <;> norm_num) (by norm_num)).trans
    (congrArg F32.fin (by norm_num))

theorem add_zero_zero :
    F32.add (F32.fin 0) (F32.fin 0) = F32.fin 0 := by
  show F32.ofRat (0 + 0) = _
  rw [show ((0 + 0) : ℚ) = 0 by norm_num]
  exact F32.ofRat_zero

theorem lit_x0 : F32.ofRat (-2.167) = F32.fin (-9089057 / 4194304) :=
  (F32.ofRat_neg_eq (-2.167) (1) 9089057 (by norm_num) (by norm_num) (by norm_num)
    (by rw [abs_lt]; constructor <;> norm_num) (by norm_num)).trans
    (congrArg F32.fin (by norm_num))

theorem lit_x1 : F32.ofRat 1.167 = F32.fin (4894753 / 4194304) :=
  (F32.ofRat_pos_eq 1.167 (0) 9789506 (by norm_num) (by norm_num) (by norm_num)
    (by rw [abs_lt]; constructor <;> norm_num) (by norm_num)).trans
    (congrArg F32.fin (by norm_num))

theorem lit_y0 : F32.ofRat (-1) = F32.fin (-1) :=
  (F32.ofRat_neg_eq (-1) (0) 8388608 (by norm_num) (by norm_num) (by norm_num)
    (by rw [abs_lt]; constructor <;> norm_num) (by norm_num)).trans
    (congrArg F32.fin (by norm_num))

theorem lit_y1 : F32.ofRat 1 = F32.fin 1 :=
  (F32.ofRat_pos_eq 1 (0) 8388608 (by norm_num) (by norm_num) (by norm_num)
    (by rw [abs_lt]; constructor <;> norm_num) (by norm_num)).trans
    (congrArg F32.fin (by norm_num))

theorem lit_0_01 : F32.ofRat 0.01 = F32.fin (5368709 / 536870912) :=
  (F32.ofRat_pos_eq 0.01 (-7) 10737418 (by norm_num) (by norm_num) (by norm_num)
    (by rw [abs_lt]; constructor <;> norm_num) (by norm_num)).trans
    (congrArg F32.fin (by norm_num))

theorem lit_1_0 : F32.ofRat 1.0 = F32.fin 1 :=
  (F32.ofRat_pos_eq 1.0 (0) 8388608 (by norm_num) (by norm_num) (by norm_num)
    (by rw [abs_lt]; constructor <;> norm_num) (by norm_num)).trans
    (congrArg F32.fin (by norm_num))

theorem lit_0_015 : F32.ofRat 0.015 = F32.fin (16106127 / 1073741824) :=
  (F32.ofRat_pos_eq 0.015 (-7) 16106127 (by norm_num) (by norm_num) (by norm_num)
    (by rw [abs_lt]; constructor <;> norm_num) (by norm_num)).trans
    (congrArg F32.fin (by norm_num))

theorem lit_0_02 : F32.ofRat 0.02 = F32.fin (5368709 / 268435456) :=
  (F32.ofRat_pos_eq 0.02 (-6) 10737418 (by norm_num) (by norm_num) (by norm_num)
    (by rw [abs_lt]; constructor <;> norm_num) (by norm_num)).trans
    (congrArg F32.fin (by norm_num))

theorem lit_0_002 : F32.ofRat 0.002 = F32.fin (8589935 / 4294967296) :=
  (F32.ofRat_pos_eq 0.002 (-9) 8589935 (by norm_num) (by norm_num) (by norm_num)
    (by rw [abs_lt]; constructor <;> norm_num) (by norm_num)).trans
    (congrArg F32.fin (by norm_num))

theorem lit_0_0 : F32.ofRat 0.0 = F32.fin 0 :=
  by
  rw [show (0.0 : ℚ) = 0 by norm_num]
  exact F32.ofRat_zero

theorem lit_m0_98 : F32.ofRat (-0.98) = F32.fin (-2055209 / 2097152) :=
  (F32.ofRat_neg_eq (-0.98) (-1) 16441672 (by norm_num) (by norm_num) (by norm_num)
    (by rw [abs_lt]; constructor <;> norm_num) (by norm_num)).trans
    (congrArg F32.fin (by norm_num))

theorem lit_0_35 : F32.ofRat 0.35 = F32.fin (11744051 / 33554432) :=
  (F32.ofRat_pos_eq 0.35 (-2) 11744051 (by norm_num) (by norm_num) (by norm_num)
    (by rw [abs_lt]; constructor <;> norm_num) (by norm_num)).trans
    (congrArg F32.fin (by norm_num))

theorem lit_m1_5 : F32.ofRat (-1.5) = F32.fin (-3 / 2) :=
  (F32.ofRat_neg_eq (-1.5) (0) 12582912 (by norm_num) (by norm_num) (by norm_num)
    (by rw [abs_lt]; constructor <;> norm_num) (by norm_num)).trans
    (congrArg F32.fin (by norm_num))

theorem lit_m1_4 : F32.ofRat (-1.4) = F32.fin (-11744051 / 8388608) :=
  (F32.ofRat_neg_eq (-1.4) (0) 11744051 (by norm_num) (by norm_num) (by norm_num)
    (by rw [abs_lt]; constructor <;> norm_num) (by norm_num)).trans
    (congrArg F32.fin (by norm_num))

theorem lit_0_30 : F32.ofRat 0.30 = F32.fin (5033165 / 16777216) :=
  (F32.ofRat_pos_eq 0.30 (-2) 10066330 (by norm_num) (by norm_num) (by norm_num)
    (by rw [abs_lt]; constructor <;> norm_num) (by norm_num)).trans
    (congrArg F32.fin (by norm_num))

theorem lit_0_05 : F32.ofRat 0.05 = F32.fin (13421773 / 268435456) :=
  (F32.ofRat_pos_eq 0.05 (-5) 13421773 (by norm_num) (by norm_num) (by norm_num)
    (by rw [abs_lt]; constructor <;> norm_num) (by norm_num)).trans
    (congrArg F32.fin (by norm_num))

theorem lit_0_73 : F32.ofRat 0.73 = F32.fin (1530921 / 2097152) :=
  (F32.ofRat_pos_eq 0.73 (-1) 12247368 (by norm_num) (by norm_num) (by norm_num)
    (by rw [abs_lt]; constructor <;> norm_num) (by norm_num)).trans
    (congrArg F32.fin (by norm_num))

theorem lit_m0_02167 : F32.ofRat (-0.02167) = F32.fin (-11633993 / 536870912) :=
  (F32.ofRat_neg_eq (-0.02167) (-6) 11633993 (by norm_num) (by norm_num) (by norm_num)
    (by rw [abs_lt]; constructor <;> norm_num) (by norm_num)).trans
    (congrArg F32.fin (by norm_num))

theorem lit_1em10 : F32.ofRat 1e-10 = F32.fin (14411519 / 144115188075855872) :=
  (F32.ofRat_pos_eq 1e-10 (-34) 14411519 (by norm_num) (by norm_num) (by norm_num)
    (by rw [abs_lt]; constructor <;> norm_num) (by norm_num)).trans
    (congrArg F32.fin (by norm_num))

theorem mul_x0_view0 :
    F32.mul (F32.fin (-9089057 / 4194304)) (F32.fin (5368709 / 536870912))
      = F32.fin (-11633993 / 536870912) := by
  show F32.ofRat ((-9089057 / 4194304) * (5368709 / 536870912)) = _
  exact (F32.ofRat_neg_eq ((-9089057 / 4194304) * (5368709 / 536870912)) (-6) 11633993
    (by norm_num) (by norm_num) (by norm_num)
    (by rw [abs_lt]; constructor <;> norm_num) (by norm_num)).trans
    (congrArg F32.fin (by norm_num))

theorem add_x0_view0 :
    F32.add (F32.fin (-11633993 / 536870912)) (F32.fin 0) = F32.fin (-11633993 / 536870912) := by
  show F32.ofRat ((-11633993 / 536870912) + 0) = _
  exact (F32.ofRat_neg_eq ((-11633993 / 536870912) + 0) (-6) 11633993
    (by norm_num) (by norm_num) (by norm_num)
    (by rw [abs_lt]; constructor <;> norm_num) (by norm_num)).trans
    (congrArg F32.fin (by norm_num))

theorem mul_x1_view0 :
    F32.mul (F32.fin (4894753 / 4194304)) (F32.fin (5368709 / 536870912))
      = F32.fin (12530567 / 1073741824) := by
  show F32.ofRat ((4894753 / 4194304) * (5368709 / 536870912)) = _
  exact (F32.ofRat_pos_eq ((4894753 / 4194304) * (5368709 / 536870912)) (-7) 12530567
    (by norm_num) (by norm_num) (by norm_num)
    (by rw [abs_lt]; constructor <;> norm_num) (by norm_num)).trans
    (congrArg F32.fin (by norm_num))

theorem add_x1_view0 :
    F32.add (F32.fin (12530567 / 1073741824)) (F32.fin 0) = F32.fin (12530567 / 1073741824) := by
  show F32.ofRat ((12530567 / 1073741824) + 0) = _
  exact (F32.ofRat_pos_eq ((12530567 / 1073741824) + 0) (-7) 12530567
    (by norm_num) (by norm_num) (by norm_num)
    (by rw [abs_lt]; constructor <;> norm_num) (by norm_num)).trans
    (congrArg F32.fin (by norm_num))

theorem mul_y0_view0 :
    F32.mul (F32.fin (-1)) (F32.fin (5368709 / 536870912)) = F32.fin (-5368709 / 536870912) := by
  show F32.ofRat ((-1) * (5368709 / 536870912)) = _
  exact (F32.ofRat_neg_eq ((-1) * (5368709 / 536870912)) (-7) 10737418
    (by norm_num) (by norm_num) (by norm_num)
    (by rw [abs_lt]; constructor <;> norm_num) (by norm_num)).trans
    (congrArg F32.fin (by norm_num))

theorem add_y0_view0 :
    F32.add (F32.fin (-5368709 / 536870912)) (F32.fin 0) = F32.fin (-5368709 / 536870912) := by
  show F32.ofRat ((-5368709 / 536870912) + 0) = _
  exact (F32.ofRat_neg_eq ((-5368709 / 536870912) + 0) (-7) 10737418
    (by norm_num) (by norm_num) (by norm_num)
    (by rw [abs_lt]; constructor <;> norm_num) (by norm_num)).trans
    (congrArg F32.fin (by norm_num))

theorem mul_y1_view0 :
    F32.mul (F32.fin 1) (F32.fin (5368709 / 536870912)) = F32.fin (5368709 / 536870912) := by
  show F32.ofRat (1 * (5368709 / 536870912)) = _
  exact (F32.ofRat_pos_eq (1 * (5368709 / 536870912)) (-7) 10737418
    (by norm_num) (by norm_num) (by norm_num)
    (by rw [abs_lt]; constructor <;> norm_num) (by norm_num)).trans
    (congrArg F32.fin (by norm_num))

theorem add_y1_view0 :
    F32.add (F32.fin (5368709 / 536870912)) (F32.fin 0) = F32.fin (5368709 / 536870912) := by
  show F32.ofRat ((5368709 / 536870912) + 0) = _
  exact (F32.ofRat_pos_eq ((5368709 / 536870912) + 0) (-7) 10737418
    (by norm_num) (by norm_num) (by norm_num)
    (by rw [abs_lt]; constructor <;> norm_num) (by norm_num)).trans
    (congrArg F32.fin (by norm_num))

theorem mul_x0_view1 :
    F32.mul (F32.fin (-9089057 / 4194304)) (F32.fin 1) = F32.fin (-9089057 / 4194304) := by
  show F32.ofRat ((-9089057 / 4194304) * 1) = _
  exact (F32.ofRat_neg_eq ((-9089057 / 4194304) * 1) (1) 9089057
    (by norm_num) (by norm_num) (by norm_num)
    (by rw [abs_lt]; constructor <;> norm_num) (by norm_num)).trans
    (congrArg F32.fin (by norm_num))

theorem add_x0_view1 :
    F32.add (F32.fin (-9089057 / 4194304)) (F32.fin 0) = F32.fin (-9089057 / 4194304) := by
  show F32.ofRat ((-9089057 / 4194304) + 0) = _
  exact (F32.ofRat_neg_eq ((-9089057 / 4194304) + 0) (1) 9089057
    (by norm_num) (by norm_num) (by norm_num)
    (by rw [abs_lt]; constructor <;> norm_num) (by norm_num)).trans
    (congrArg F32.fin (by norm_num))

theorem mul_x1_view1 :
    F32.mul (F32.fin (4894753 / 4194304)) (F32.fin 1) = F32.fin (4894753 / 4194304) := by
  show F32.ofRat ((4894753 / 4194304) * 1) = _
  exact (F32.ofRat_pos_eq ((4894753 / 4194304) * 1) (0) 9789506
    (by norm_num) (by norm_num) (by norm_num)
    (by rw [abs_lt]; constructor <;> norm_num) (by norm_num)).trans
    (congrArg F32.fin (by norm_num))

theorem add_x1_view1 :
    F32.add (F32.fin (4894753 / 4194304)) (F32.fin 0) = F32.fin (4894753 / 4194304) := by
  show F32.ofRat ((4894753 / 4194304) + 0) = _
  exact (F32.ofRat_pos_eq ((4894753 / 4194304) + 0) (0) 9789506
    (by norm_num) (by norm_num) (by norm_num)
    (by rw [abs_lt]; constructor <;> norm_num) (by norm_num)).trans
    (congrArg F32.fin (by norm_num))

theorem mul_y0_view1 :
    F32.mul (F32.fin (-1)) (F32.fin 1) = F32.fin (-1) := by
  show F32.ofRat ((-1) * 1) = _
  exact (F32.ofRat_neg_eq ((-1) * 1) (0) 8388608 (by norm_num) (by norm_num) (by norm_num)
    (by rw [abs_lt]; constructor <;> norm_num) (by norm_num)).trans
    (congrArg F32.fin (by norm_num))

theorem add_y0_view1 :
    F32.add (F32.fin (-1)) (F32.fin 0) = F32.fin (-1) := by
  show F32.ofRat ((-1) + 0) = _
  exact (F32.ofRat_neg_eq ((-1) + 0) (0) 8388608 (by norm_num) (by norm_num) (by norm_num)
    (by rw [abs_lt]; constructor <;> norm_num) (by norm_num)).trans
    (congrArg F32.fin (by norm_num))

theorem add_y1_view1 :
    F32.add (F32.fin 1) (F32.fin 0) = F32.fin 1 := by
  show F32.ofRat (1 + 0) = _
  exact (F32.ofRat_pos_eq (1 + 0) (0) 8388608 (by norm_num) (by norm_num) (by norm_num)
    (by rw [abs_lt]; constructor <;> norm_num) (by norm_num)).trans
    (congrArg F32.fin (by norm_num))

theorem mul_x0_view2 :
    F32.mul (F32.fin (-9089057 / 4194304)) (F32.fin (16106127 / 1073741824))
      = F32.fin (-8725495 / 268435456) := by
  show F32.ofRat ((-9089057 / 4194304) * (16106127 / 1073741824)) = _
  exact (F32.ofRat_neg_eq ((-9089057 / 4194304) * (16106127 / 1073741824)) (-5) 8725495
    (by norm_num) (by norm_num) (by norm_num)
    (by rw [abs_lt]; constructor <;> norm_num) (by norm_num)).trans
    (congrArg F32.fin (by norm_num))

theorem add_x0_view2 :
    F32.add (F32.fin (-8725495 / 268435456)) (F32.fin (-2055209 / 2097152))
      = F32.fin (-2123377 / 2097152) := by
  show F32.ofRat ((-8725495 / 268435456) + (-2055209 / 2097152)) = _
  exact (F32.ofRat_neg_eq ((-8725495 / 268435456) + (-2055209 / 2097152)) (0) 8493508
    (by norm_num) (by norm_num) (by norm_num)
    (by rw [abs_lt]; constructor <;> norm_num) (by norm_num)).trans
    (congrArg F32.fin (by norm_num))

theorem mul_x1_view2 :
    F32.mul (F32.fin (4894753 / 4194304)) (F32.fin (16106127 / 1073741824))
      = F32.fin (4698963 / 268435456) := by
  show F32.ofRat ((4894753 / 4194304) * (16106127 / 1073741824)) = _
  exact (F32.ofRat_pos_eq ((4894753 / 4194304) * (16106127 / 1073741824)) (-6) 9397926
    (by norm_num) (by norm_num) (by norm_num)
    (by rw [abs_lt]; constructor <;> norm_num) (by norm_num)).trans
    (congrArg F32.fin (by norm_num))

theorem add_x1_view2 :
    F32.add (F32.fin (4698963 / 268435456)) (F32.fin (-2055209 / 2097152))
      = F32.fin (-16147987 / 16777216) := by
  show F32.ofRat ((4698963 / 268435456) + (-2055209 / 2097152)) = _
  exact (F32.ofRat_neg_eq ((4698963 / 268435456) + (-2055209 / 2097152)) (-1) 16147987
    (by norm_num) (by norm_num) (by norm_num)
    (by rw [abs_lt]; constructor <;> norm_num) (by norm_num)).trans
    (congrArg F32.fin (by norm_num))

theorem mul_y0_view2 :
    F32.mul (F32.fin (-1)) (F32.fin (16106127 / 1073741824))
      = F32.fin (-16106127 / 1073741824) := by
  show F32.ofRat ((-1) * (16106127 / 1073741824)) = _
  exact (F32.ofRat_neg_eq ((-1) * (16106127 / 1073741824)) (-7) 16106127
    (by norm_num) (by norm_num) (by norm_num)
    (by rw [abs_lt]; constructor <;> norm_num) (by norm_num)).trans
    (congrArg F32.fin (by norm_num))

theorem add_y0_view2 :
    F32.add (F32.fin (-16106127 / 1073741824)) (F32.fin (5033165 / 16777216))
      = F32.fin (4781507 / 16777216) := by
  show F32.ofRat ((-16106127 / 1073741824) + (5033165 / 16777216)) = _
  exact (F32.ofRat_pos_eq ((-16106127 / 1073741824) + (5033165 / 16777216)) (-2) 9563014
    (by norm_num) (by norm_num) (by norm_num)
    (by rw [abs_lt]; constructor <;> norm_num) (by norm_num)).trans
    (congrArg F32.fin (by norm_num))

theorem mul_y1_view2 :
    F32.mul (F32.fin 1) (F32.fin (16106127 / 1073741824)) = F32.fin (16106127 / 1073741824) := by
  show F32.ofRat (1 * (16106127 / 1073741824)) = _
  exact (F32.ofRat_pos_eq (1 * (16106127 / 1073741824)) (-7) 16106127
    (by norm_num) (by norm_num) (by norm_num)
    (by rw [abs_lt]; constructor <;> norm_num) (by norm_num)).trans
    (congrArg F32.fin (by norm_num))

theorem add_y1_view2 :
    F32.add (F32.fin (16106127 / 1073741824)) (F32.fin (5033165 / 16777216))
      = F32.fin (5284823 / 16777216) := by
  show F32.ofRat ((16106127 / 1073741824) + (5033165 / 16777216)) = _
  exact (F32.ofRat_pos_eq ((16106127 / 1073741824) + (5033165 / 16777216)) (-2) 10569646
    (by norm_num) (by norm_num) (by norm_num)
    (by rw [abs_lt]; constructor <;> norm_num) (by norm_num)).trans
    (congrArg F32.fin (by norm_num))

theorem mul_x0_view3 :
    F32.mul (F32.fin (-9089057 / 4194304)) (F32.fin (5368709 / 268435456))
      = F32.fin (-11633993 / 268435456) := by
  show F32.ofRat ((-9089057 / 4194304) * (5368709 / 268435456)) = _
  exact (F32.ofRat_neg_eq ((-9089057 / 4194304) * (5368709 / 268435456)) (-5) 11633993
    (by norm_num) (by norm_num) (by norm_num)
    (by rw [abs_lt]; constructor <;> norm_num) (by norm_num)).trans
    (congrArg F32.fin (by norm_num))

theorem add_x0_view3 :
    F32.add (F32.fin (-11633993 / 268435456)) (F32.fin (11744051 / 33554432))
      = F32.fin (5144901 / 16777216) := by
  show F32.ofRat ((-11633993 / 268435456) + (11744051 / 33554432)) = _
  exact (F32.ofRat_pos_eq ((-11633993 / 268435456) + (11744051 / 33554432)) (-2) 10289802
    (by norm_num) (by norm_num) (by norm_num)
    (by rw [abs_lt]; constructor <;> norm_num) (by norm_num)).trans
    (congrArg F32.fin (by norm_num))

theorem mul_x1_view3 :
    F32.mul (F32.fin (4894753 / 4194304)) (F32.fin (5368709 / 268435456))
      = F32.fin (12530567 / 536870912) := by
  show F32.ofRat ((4894753 / 4194304) * (5368709 / 268435456)) = _
  exact (F32.ofRat_pos_eq ((4894753 / 4194304) * (5368709 / 268435456)) (-6) 12530567
    (by norm_num) (by norm_num) (by norm_num)
    (by rw [abs_lt]; constructor <;> norm_num) (by norm_num)).trans
    (congrArg F32.fin (by norm_num))

theorem add_x1_view3 :
    F32.add (F32.fin (12530567 / 536870912)) (F32.fin (11744051 / 33554432))
      = F32.fin (12527211 / 33554432) := by
  show F32.ofRat ((12530567 / 536870912) + (11744051 / 33554432)) = _
  exact (F32.ofRat_pos_eq ((12530567 / 536870912) + (11744051 / 33554432)) (-2) 12527211
    (by norm_num) (by norm_num) (by norm_num)
    (by rw [abs_lt]; constructor <;> norm_num) (by norm_num)).trans
    (congrArg F32.fin (by norm_num))

theorem mul_y0_view3 :
    F32.mul (F32.fin (-1)) (F32.fin (5368709 / 268435456)) = F32.fin (-5368709 / 268435456) := by
  show F32.ofRat ((-1) * (5368709 / 268435456)) = _
  exact (F32.ofRat_neg_eq ((-1) * (5368709 / 268435456)) (-6) 10737418
    (by norm_num) (by norm_num) (by norm_num)
    (by rw [abs_lt]; constructor <;> norm_num) (by norm_num)).trans
    (congrArg F32.fin (by norm_num))

theorem add_y0_view3 :
    F32.add (F32.fin (-5368709 / 268435456)) (F32.fin (13421773 / 268435456))
      = F32.fin (1006633 / 33554432) := by
  show F32.ofRat ((-5368709 / 268435456) + (13421773 / 268435456)) = _
  exact (F32.ofRat_pos_eq ((-5368709 / 268435456) + (13421773 / 268435456)) (-6) 16106128
    (by norm_num) (by norm_num) (by norm_num)
    (by rw [abs_lt]; constructor <;> norm_num) (by norm_num)).trans
    (congrArg F32.fin (by norm_num))

theorem mul_y1_view3 :
    F32.mul (F32.fin 1) (F32.fin (5368709 / 268435456)) = F32.fin (5368709 / 268435456) := by
  show F32.ofRat (1 * (5368709 / 268435456)) = _
  exact (F32.ofRat_pos_eq (1 * (5368709 / 268435456)) (-6) 10737418
    (by norm_num) (by norm_num) (by norm_num)
    (by rw [abs_lt]; constructor <;> norm_num) (by norm_num)).trans
    (congrArg F32.fin (by norm_num))

theorem add_y1_view3 :
    F32.add (F32.fin (5368709 / 268435456)) (F32.fin (13421773 / 268435456))
      = F32.fin (9395241 / 134217728) := by
  show F32.ofRat ((5368709 / 268435456) + (13421773 / 268435456)) = _
  exact (F32.ofRat_pos_eq ((5368709 / 268435456) + (13421773 / 268435456)) (-4) 9395241
    (by norm_num) (by norm_num) (by norm_num)
    (by rw [abs_lt]; constructor <;> norm_num) (by norm_num)).trans
    (congrArg F32.fin (by norm_num))

theorem add_x0_view4 :
    F32.add (F32.fin (-11633993 / 268435456)) (F32.fin 0) = F32.fin (-11633993 / 268435456) := by
  show F32.ofRat ((-11633993 / 268435456) + 0) = _
  exact (F32.ofRat_neg_eq ((-11633993 / 268435456) + 0) (-5) 11633993
    (by norm_num) (by norm_num) (by norm_num)
    (by rw [abs_lt]; constructor <;> norm_num) (by norm_num)).trans
    (congrArg F32.fin (by norm_num))

theorem add_x1_view4 :
    F32.add (F32.fin (12530567 / 536870912)) (F32.fin 0) = F32.fin (12530567 / 536870912) := by
  show F32.ofRat ((12530567 / 536870912) + 0) = _
  exact (F32.ofRat_pos_eq ((12530567 / 536870912) + 0) (-6) 12530567
    (by norm_num) (by norm_num) (by norm_num)
    (by rw [abs_lt]; constructor <;> norm_num) (by norm_num)).trans
    (congrArg F32.fin (by norm_num))

theorem add_y0_view4 :
    F32.add (F32.fin (-5368709 / 268435456)) (F32.fin (1530921 / 2097152))
      = F32.fin (744489 / 1048576) := by
  show F32.ofRat ((-5368709 / 268435456) + (1530921 / 2097152)) = _
  exact (F32.ofRat_pos_eq ((-5368709 / 268435456) + (1530921 / 2097152)) (-1) 11911824
    (by norm_num) (by norm_num) (by norm_num)
    (by rw [abs_lt]; constructor <;> norm_num) (by norm_num)).trans
    (congrArg F32.fin (by norm_num))

theorem add_y1_view4 :
    F32.add (F32.fin (5368709 / 268435456)) (F32.fin (1530921 / 2097152)) = F32.fin (3 / 4) := by
  show F32.ofRat ((5368709 / 268435456) + (1530921 / 2097152)) = _
  exact (F32.ofRat_pos_eq ((5368709 / 268435456) + (1530921 / 2097152)) (-1) 12582912
    (by norm_num) (by norm_num) (by norm_num)
    (by rw [abs_lt]; constructor <;> norm_num) (by norm_num)).trans
    (congrArg F32.fin (by norm_num))

theorem add_x0_view5 :
    F32.add (F32.fin (-11633993 / 268435456)) (F32.fin (-3 / 2))
      = F32.fin (-6473237 / 4194304) := by
  show F32.ofRat ((-11633993 / 268435456) + (-3 / 2)) = _
  exact (F32.ofRat_neg_eq ((-11633993 / 268435456) + (-3 / 2)) (0) 12946474
    (by norm_num) (by norm_num) (by norm_num)
    (by rw [abs_lt]; constructor <;> norm_num) (by norm_num)).trans
    (congrArg F32.fin (by norm_num))

theorem add_x1_view5 :
    F32.add (F32.fin (12530567 / 536870912)) (F32.fin (-3 / 2)) = F32.fin (-6193561 / 4194304) := by
  show F32.ofRat ((12530567 / 536870912) + (-3 / 2)) = _
  exact (F32.ofRat_neg_eq ((12530567 / 536870912) + (-3 / 2)) (0) 12387122
    (by norm_num) (by norm_num) (by norm_num)
    (by rw [abs_lt]; constructor <;> norm_num) (by norm_num)).trans
    (congrArg F32.fin (by norm_num))

theorem add_y0_view5 :
    F32.add (F32.fin (-5368709 / 268435456)) (F32.fin 0) = F32.fin (-5368709 / 268435456) := by
  show F32.ofRat ((-5368709 / 268435456) + 0) = _
  exact (F32.ofRat_neg_eq ((-5368709 / 268435456) + 0) (-6) 10737418
    (by norm_num) (by norm_num) (by norm_num)
    (by rw [abs_lt]; constructor <;> norm_num) (by norm_num)).trans
    (congrArg F32.fin (by norm_num))

theorem add_y1_view5 :
    F32.add (F32.fin (5368709 / 268435456)) (F32.fin 0) = F32.fin (5368709 / 268435456) := by
  show F32.ofRat ((5368709 / 268435456) + 0) = _
  exact (F32.ofRat_pos_eq ((5368709 / 268435456) + 0) (-6) 10737418
    (by norm_num) (by norm_num) (by norm_num)
    (by rw [abs_lt]; constructor <;> norm_num) (by norm_num)).trans
    (congrArg F32.fin (by norm_num))

theorem mul_x0_view6 :
    F32.mul (F32.fin (-9089057 / 4194304)) (F32.fin (8589935 / 4294967296))
      = F32.fin (-9307195 / 2147483648) := by
  show F32.ofRat ((-9089057 / 4194304) * (8589935 / 4294967296)) = _
  exact (F32.ofRat_neg_eq ((-9089057 / 4194304) * (8589935 / 4294967296)) (-8) 9307195
    (by norm_num) (by norm_num) (by norm_num)
    (by rw [abs_lt]; constructor <;> norm_num) (by norm_num)).trans
    (congrArg F32.fin (by norm_num))

theorem add_x0_view6 :
    F32.add (F32.fin (-9307195 / 2147483648)) (F32.fin (-11744051 / 8388608))
      = F32.fin (-11780407 / 8388608) := by
  show F32.ofRat ((-9307195 / 2147483648) + (-11744051 / 8388608)) = _
  exact (F32.ofRat_neg_eq ((-9307195 / 2147483648) + (-11744051 / 8388608)) (0) 11780407
    (by norm_num) (by norm_num) (by norm_num)
    (by rw [abs_lt]; constructor <;> norm_num) (by norm_num)).trans
    (congrArg F32.fin (by norm_num))

theorem mul_x1_view6 :
    F32.mul (F32.fin (4894753 / 4194304)) (F32.fin (8589935 / 4294967296))
      = F32.fin (10024455 / 4294967296) := by
  show F32.ofRat ((4894753 / 4194304) * (8589935 / 4294967296)) = _
  exact (F32.ofRat_pos_eq ((4894753 / 4194304) * (8589935 / 4294967296)) (-9) 10024455
    (by norm_num) (by norm_num) (by norm_num)
    (by rw [abs_lt]; constructor <;> norm_num) (by norm_num)).trans
    (congrArg F32.fin (by norm_num))

theorem add_x1_view6 :
    F32.add (F32.fin (10024455 / 4294967296)) (F32.fin (-11744051 / 8388608))
      = F32.fin (-1465559 / 1048576) := by
  show F32.ofRat ((10024455 / 4294967296) + (-11744051 / 8388608)) = _
  exact (F32.ofRat_neg_eq ((10024455 / 4294967296) + (-11744051 / 8388608)) (0) 11724472
    (by norm_num) (by norm_num) (by norm_num)
    (by rw [abs_lt]; constructor <;> norm_num) (by norm_num)).trans
    (congrArg F32.fin (by norm_num))

theorem mul_y0_view6 :
    F32.mul (F32.fin (-1)) (F32.fin (8589935 / 4294967296)) = F32.fin (-8589935 / 4294967296) := by
  show F32.ofRat ((-1) * (8589935 / 4294967296)) = _
  exact (F32.ofRat_neg_eq ((-1) * (8589935 / 4294967296)) (-9) 8589935
    (by norm_num) (by norm_num) (by norm_num)
    (by rw [abs_lt]; constructor <;> norm_num) (by norm_num)).trans
    (congrArg F32.fin (by norm_num))

theorem add_y0_view6 :
    F32.add (F32.fin (-8589935 / 4294967296)) (F32.fin 0) = F32.fin (-8589935 / 4294967296) := by
  show F32.ofRat ((-8589935 / 4294967296) + 0) = _
  exact (F32.ofRat_neg_eq ((-8589935 / 4294967296) + 0) (-9) 8589935
    (by norm_num) (by norm_num) (by norm_num)
    (by rw [abs_lt]; constructor <;> norm_num) (by norm_num)).trans
    (congrArg F32.fin (by norm_num))

theorem mul_y1_view6 :
    F32.mul (F32.fin 1) (F32.fin (8589935 / 4294967296)) = F32.fin (8589935 / 4294967296) := by
  show F32.ofRat (1 * (8589935 / 4294967296)) = _
  exact (F32.ofRat_pos_eq (1 * (8589935 / 4294967296)) (-9) 8589935
    (by norm_num) (by norm_num) (by norm_num)
    (by rw [abs_lt]; constructor <;> norm_num) (by norm_num)).trans
    (congrArg F32.fin (by norm_num))

theorem add_y1_view6 :
    F32.add (F32.fin (8589935 / 4294967296)) (F32.fin 0) = F32.fin (8589935 / 4294967296) := by
  show F32.ofRat ((8589935 / 4294967296) + 0) = _
  exact (F32.ofRat_pos_eq ((8589935 / 4294967296) + 0) (-9) 8589935
    (by norm_num) (by norm_num) (by norm_num)
    (by rw [abs_lt]; constructor <;> norm_num) (by norm_num)).trans
    (congrArg F32.fin (by norm_num))

theorem mul_x1_inverted :
    F32.mul (F32.fin 0) (F32.fin (5368709 / 536870912)) = F32.fin 0 := by
  show F32.ofRat (0 * (5368709 / 536870912)) = _
  rw [show ((0 * (5368709 / 536870912)) : ℚ) = 0 by norm_num]
  exact F32.ofRat_zero

theorem mul_x0_tiny :
    F32.mul (F32.fin 0) (F32.fin (16106127 / 1073741824)) = F32.fin 0 := by
  show F32.ofRat (0 * (16106127 / 1073741824)) = _
  rw [show ((0 * (16106127 / 1073741824)) : ℚ) = 0 by norm_num]
  exact F32.ofRat_zero

theorem add_x0_tiny :
    F32.add (F32.fin 0) (F32.fin (-2055209 / 2097152)) = F32.fin (-2055209 / 2097152) := by
  show F32.ofRat (0 + (-2055209 / 2097152)) = _
  exact (F32.ofRat_neg_eq (0 + (-2055209 / 2097152)) (-1) 16441672
    (by norm_num) (by norm_num) (by norm_num)
    (by rw [abs_lt]; constructor <;> norm_num) (by norm_num)).trans
    (congrArg F32.fin (by norm_num))

theorem mul_x1_tiny :
    F32.mul (F32.fin (14411519 / 144115188075855872)) (F32.fin (16106127 / 1073741824))
      = F32.fin (6917529 / 4611686018427387904) := by
  show F32.ofRat ((14411519 / 144115188075855872) * (16106127 / 1073741824)) = _
  exact (F32.ofRat_pos_eq ((14411519 / 144115188075855872) * (16106127 / 1073741824)) (-40) 13835058
    (by norm_num) (by norm_num) (by norm_num)
    (by rw [abs_lt]; constructor <;> norm_num) (by norm_num)).trans
    (congrArg F32.fin (by norm_num))

theorem add_x1_tiny :
    F32.add (F32.fin (6917529 / 4611686018427387904)) (F32.fin (-2055209 / 2097152))
      = F32.fin (-2055209 / 2097152) := by
  show F32.ofRat ((6917529 / 4611686018427387904) + (-2055209 / 2097152)) = _
  exact (F32.ofRat_neg_eq ((6917529 / 4611686018427387904) + (-2055209 / 2097152)) (-1) 16441672
    (by norm_num) (by norm_num) (by norm_num)
    (by rw [abs_lt]; constructor <;> norm_num) (by norm_num)).trans
    (congrArg F32.fin (by norm_num))

theorem add_y0_tiny :
    F32.add (F32.fin 0) (F32.fin (5033165 / 16777216)) = F32.fin (5033165 / 16777216) := by
  show F32.ofRat (0 + (5033165 / 16777216)) = _
  exact (F32.ofRat_pos_eq (0 + (5033165 / 16777216)) (-2) 10066330
    (by norm_num) (by norm_num) (by norm_num)
    (by rw [abs_lt]; constructor <;> norm_num) (by norm_num)).trans
    (congrArg F32.fin (by norm_num))

/-- Every rational within `2^-50` of `-2.167`, so also the `double` value of
the literal, rounds to the same binary32 value. -/
theorem lit_x0_stable (d : ℚ) (h : |d - (-2.167)| ≤ 1 / 2 ^ 50) :
    F32.ofRat d = F32.fin (-9089057 / 4194304) := by
  rw [abs_le] at h
  obtain ⟨h1, h2⟩ := h
  norm_num at h1 h2
  exact (F32.ofRat_neg_eq d 1 9089057 (by norm_num) (by norm_num; linarith)
    (by norm_num; linarith)
    (by rw [abs_lt]; constructor <;> norm_num <;> linarith) (by norm_num)).trans
    (congrArg F32.fin (by norm_num))

/-- Every rational within `2^-50` of `1.167`, so also the `double` value of
the literal, rounds to the same binary32 value. -/
theorem lit_x1_stable (d : ℚ) (h : |d - 1.167| ≤ 1 / 2 ^ 50) :
    F32.ofRat d = F32.fin (4894753 / 4194304) := by
  rw [abs_le] at h
  obtain ⟨h1, h2⟩ := h
  norm_num at h1 h2
  exact (F32.ofRat_pos_eq d 0 9789506 (by norm_num) (by norm_num; linarith)
    (by norm_num; linarith)
    (by rw [abs_lt]; constructor <;> norm_num <;> linarith) (by norm_num)).trans
    (congrArg F32.fin (by norm_num))

/-! ## `scaleAndShift` and the view presets -/

theorem viewport_view0 :
    viewport { initLocals with viewIndex := 0 }
      = { x0 := F32.fin (-11633993 / 536870912), x1 := F32.fin (12530567 / 1073741824),
          y0 := F32.fin (-5368709 / 536870912), y1 := F32.fin (5368709 / 536870912) } := by
  show scaleAndShift (F32.ofRat (-2.167)) (F32.ofRat 1.167) (F32.ofRat (-1)) (F32.ofRat 1)
      (F32.ofRat 0.01) (F32.ofRat 0.0) (F32.ofRat 0.0) = _
  simp only [scaleAndShift, lit_x0, lit_x1, lit_y0, lit_y1, lit_0_01, lit_0_0,
    mul_x0_view0, add_x0_view0, mul_x1_view0, add_x1_view0, mul_y0_view0, add_y0_view0,
    mul_y1_view0, add_y1_view0]

theorem viewport_view1 :
    viewport { initLocals with viewIndex := 1 }
      = { x0 := F32.fin (-9089057 / 4194304), x1 := F32.fin (4894753 / 4194304),
          y0 := F32.fin (-1), y1 := F32.fin 1 } := by
  show scaleAndShift (F32.ofRat (-2.167)) (F32.ofRat 1.167) (F32.ofRat (-1)) (F32.ofRat 1)
      (F32.ofRat 1.0) (F32.ofRat 0.0) (F32.ofRat 0.0) = _
  simp only [scaleAndShift, lit_x0, lit_x1, lit_y0, lit_y1, lit_1_0, lit_0_0,
    mul_x0_view1, add_x0_view1, mul_x1_view1, add_x1_view1, mul_y0_view1, add_y0_view1,
    mul_one_one, add_y1_view1]

theorem viewport_view2 :
    viewport { initLocals with viewIndex := 2 }
      = { x0 := F32.fin (-2123377 / 2097152), x1 := F32.fin (-16147987 / 16777216),
          y0 := F32.fin (4781507 / 16777216), y1 := F32.fin (5284823 / 16777216) } := by
  show scaleAndShift (F32.ofRat (-2.167)) (F32.ofRat 1.167) (F32.ofRat (-1)) (F32.ofRat 1)
      (F32.ofRat 0.015) (F32.ofRat (-0.98)) (F32.ofRat 0.30) = _
  simp only [scaleAndShift, lit_x0, lit_x1, lit_y0, lit_y1, lit_0_015, lit_m0_98, lit_0_30,
    mul_x0_view2, add_x0_view2, mul_x1_view2, add_x1_view2, mul_y0_view2, add_y0_view2,
    mul_y1_view2, add_y1_view2]

theorem viewport_view3 :
    viewport { initLocals with viewIndex := 3 }
      = { x0 := F32.fin (5144901 / 16777216), x1 := F32.fin (12527211 / 33554432),
          y0 := F32.fin (1006633 / 33554432), y1 := F32.fin (9395241 / 134217728) } := by
  show scaleAndShift (F32.ofRat (-2.167)) (F32.ofRat 1.167) (F32.ofRat (-1)) (F32.ofRat 1)
      (F32.ofRat 0.02) (F32.ofRat 0.35) (F32.ofRat 0.05) = _
  simp only [scaleAndShift, lit_x0, lit_x1, lit_y0, lit_y1, lit_0_02, lit_0_35, lit_0_05,
    mul_x0_view3, add_x0_view3, mul_x1_view3, add_x1_view3, mul_y0_view3, add_y0_view3,
    mul_y1_view3, add_y1_view3]

theorem viewport_view4 :
    viewport { initLocals with viewIndex := 4 }
      = { x0 := F32.fin (-11633993 / 268435456), x1 := F32.fin (12530567 / 536870912),
          y0 := F32.fin (744489 / 1048576), y1 := F32.fin (3 / 4) } := by
  show scaleAndShift (F32.ofRat (-2.167)) (F32.ofRat 1.167) (F32.ofRat (-1)) (F32.ofRat 1)
      (F32.ofRat 0.02) (F32.ofRat 0.0) (F32.ofRat 0.73) = _
  simp only [scaleAndShift, lit_x0, lit_x1, lit_y0, lit_y1, lit_0_02, lit_0_0, lit_0_73,
    mul_x0_view3, add_x0_view4, mul_x1_view3, add_x1_view4, mul_y0_view3, add_y0_view4,
    mul_y1_view3, add_y1_view4]

theorem viewport_view5 :
    viewport { initLocals with viewIndex := 5 }
      = { x0 := F32.fin (-6473237 / 4194304), x1 := F32.fin (-6193561 / 4194304),
          y0 := F32.fin (-5368709 / 268435456), y1 := F32.fin (5368709 / 268435456) } := by
  show scaleAndShift (F32.ofRat (-2.167)) (F32.ofRat 1.167) (F32.ofRat (-1)) (F32.ofRat 1)
      (F32.ofRat 0.02) (F32.ofRat (-1.5)) (F32.ofRat 0.0) = _
  simp only [scaleAndShift, lit_x0, lit_x1, lit_y0, lit_y1, lit_0_02, lit_m1_5, lit_0_0,
    mul_x0_view3, add_x0_view5, mul_x1_view3, add_x1_view5, mul_y0_view3, add_y0_view5,
    mul_y1_view3, add_y1_view5]

theorem viewport_view6 :
    viewport { initLocals with viewIndex := 6 }
      = { x0 := F32.fin (-11780407 / 8388608), x1 := F32.fin (-1465559 / 1048576),
          y0 := F32.fin (-8589935 / 4294967296), y1 := F32.fin (8589935 / 4294967296) } := by
  show scaleAndShift (F32.ofRat (-2.167)) (F32.ofRat 1.167) (F32.ofRat (-1)) (F32.ofRat 1)
      (F32.ofRat 0.002) (F32.ofRat (-1.4)) (F32.ofRat 0.0) = _
  simp only [scaleAndShift, lit_x0, lit_x1, lit_y0, lit_y1, lit_0_002, lit_m1_4, lit_0_0,
    mul_x0_view6, add_x0_view6, mul_x1_view6, add_x1_view6, mul_y0_view6, add_y0_view6,
    mul_y1_view6, add_y1_view6]

/-- Under a positive finite scale and finite shifts, bounds in order stay in
order, possibly equal. -/
theorem scaleAndShift_le (x0 x1 y0 y1 : F32) (scale shiftX shiftY : ℚ) (hx : F32.lt x0 x1)
    (hy : F32.lt y0 y1) (hs : 0 < scale) :
    F32.le (scaleAndShift x0 x1 y0 y1 (F32.fin scale) (F32.fin shiftX) (F32.fin shiftY)).x0
        (scaleAndShift x0 x1 y0 y1 (F32.fin scale) (F32.fin shiftX) (F32.fin shiftY)).x1
    ∧ F32.le (scaleAndShift x0 x1 y0 y1 (F32.fin scale) (F32.fin shiftX) (F32.fin shiftY)).y0
        (scaleAndShift x0 x1 y0 y1 (F32.fin scale) (F32.fin shiftX) (F32.fin shiftY)).y1 :=
  ⟨F32.add_fin_mono _ _ _ (F32.mul_fin_mono _ _ _ hs (F32.lt_imp_le _ _ hx)),
   F32.add_fin_mono _ _ _ (F32.mul_fin_mono _ _ _ hs (F32.lt_imp_le _ _ hy))⟩

/-- The presets of an accepted view: the lookups are in bounds, the scale is
finite and positive, the shifts are finite. -/
theorem presets_finite (v : Int) (h0 : 0 ≤ v) (h7 : v < VIEWCNT) :
    v.toNat < scaleValues.length ∧ v.toNat < shiftXs.length ∧ v.toNat < shiftYs.length
    ∧ ∃ s t u : ℚ, 0 < s ∧ scaleValues.getD v.toNat (F32.fin 0) = F32.fin s
        ∧ shiftXs.getD v.toNat (F32.fin 0) = F32.fin t
        ∧ shiftYs.getD v.toNat (F32.fin 0) = F32.fin u := by
  obtain ⟨n, rfl⟩ := Int.eq_ofNat_of_zero_le h0
  have hn : n < 7 := by simp only [VIEWCNT] at h7; omega
  simp only [Int.toNat_ofNat]
  refine ⟨by simp only [scaleValues, List.length_cons, List.length_nil]; omega,
    by simp only [shiftXs, List.length_cons, List.length_nil]; omega,
    by simp only [shiftYs, List.length_cons, List.length_nil]; omega, ?_⟩
  interval_cases n
  · exact ⟨_, _, _, by norm_num, lit_0_01, lit_0_0, lit_0_0⟩
  · exact ⟨_, _, _, by norm_num, lit_1_0, lit_0_0, lit_0_0⟩
  · exact ⟨_, _, _, by norm_num, lit_0_015, lit_m0_98, lit_0_30⟩
  · exact ⟨_, _, _, by norm_num, lit_0_02, lit_0_35, lit_0_05⟩
  · exact ⟨_, _, _, by norm_num, lit_0_02, lit_0_0, lit_0_73⟩
  · exact ⟨_, _, _, by norm_num, lit_0_02, lit_m1_5, lit_0_0⟩
  · exact ⟨_, _, _, by norm_num, lit_0_002, lit_m1_4, lit_0_0⟩

/-- The default viewport under the preset of an accepted view is strictly
ordered. -/
theorem viewport_default_ordered (v : Int) (h0 : 0 ≤ v) (h7 : v < VIEWCNT) :
    F32.lt (viewport { initLocals with viewIndex := v }).x0
        (viewport { initLocals with viewIndex := v }).x1
    ∧ F32.lt (viewport { initLocals with viewIndex := v }).y0
        (viewport { initLocals with viewIndex := v }).y1 := by
  obtain ⟨n, rfl⟩ := Int.eq_ofNat_of_zero_le h0
  have hn : n < 7 := by simp only [VIEWCNT] at h7; omega
  interval_cases n
  · rw [show ((0 : Nat) : Int) = 0 from rfl, viewport_view0]
    constructor <;> norm_num [F32.lt]
  · rw [show ((1 : Nat) : Int) = 1 from rfl, viewport_view1]
    constructor <;> norm_num [F32.lt]
  · rw [show ((2 : Nat) : Int) = 2 from rfl, viewport_view2]
    constructor <;> norm_num [F32.lt]
  · rw [show ((3 : Nat) : Int) = 3 from rfl, viewport_view3]
    constructor <;> norm_num [F32.lt]
  · rw [show ((4 : Nat) : Int) = 4 from rfl, viewport_view4]
    constructor <;> norm_num [F32.lt]
  · rw [show ((5 : Nat) : Int) = 5 from rfl, viewport_view5]
    constructor <;> norm_num [F32.lt]
  · rw [show ((6 : Nat) : Int) = 6 from rfl, viewport_view6]
    constructor <;> norm_num [F32.lt]

/-- C6, as the code has it.  `scaleAndShift` applies the same two binary32
operations to all four bounds: the bound is multiplied by `scale`, the
product is rounded, the shift is added (`shiftX` for `x0`, `x1`, `shiftY` for
`y0`, `y1`) and the sum is rounded.  With `x0 = -2.167f`, `scale = 0.01f` and
`shiftX = 0` the result is the binary32 value nearest to `-0.02167`, which is
`-11633993 / 2^29`.  Scale `1` with zero shifts leaves every bound that a
`float` can hold unchanged. -/
theorem scaleAndShift_affine (x0 x1 y0 y1 scale shiftX shiftY : F32) :
    (scaleAndShift x0 x1 y0 y1 scale shiftX shiftY).x0 = F32.add (F32.mul x0 scale) shiftX
    ∧ (scaleAndShift x0 x1 y0 y1 scale shiftX shiftY).x1 = F32.add (F32.mul x1 scale) shiftX
    ∧ (scaleAndShift x0 x1 y0 y1 scale shiftX shiftY).y0 = F32.add (F32.mul y0 scale) shiftY
    ∧ (scaleAndShift x0 x1 y0 y1 scale shiftX shiftY).y1 = F32.add (F32.mul y1 scale) shiftY
    ∧ (∀ a s t p : ℚ, F32.ofRat (a * s) = F32.fin p →
        F32.add (F32.mul (F32.fin a) (F32.fin s)) (F32.fin t) = F32.ofRat (p + t))
    ∧ (scaleAndShift (F32.ofRat (-2.167)) x1 y0 y1 (F32.ofRat 0.01) (F32.ofRat 0) shiftY).x0
        = F32.ofRat (-0.02167)
    ∧ F32.ofRat (-0.02167) = F32.fin (-11633993 / 536870912)
    ∧ (x0.representable → x1.representable → y0.representable → y1.representable →
        scaleAndShift x0 x1 y0 y1 (F32.fin 1) (F32.fin 0) (F32.fin 0)
          = { x0 := x0, x1 := x1, y0 := y0, y1 := y1 }) := by
  refine ⟨rfl, rfl, rfl, rfl, ?_, ?_, lit_m0_02167, ?_⟩
  · intro a s t p hp
    simp only [F32.mul, hp, F32.add]
  · simp only [scaleAndShift, lit_x0, lit_0_01, F32.ofRat_zero, mul_x0_view0, add_x0_view0,
      lit_m0_02167]
  · intro h0 h1 h2 h3
    simp only [scaleAndShift, F32.mul_fin_one _ h0, F32.mul_fin_one _ h1, F32.mul_fin_one _ h2,
      F32.mul_fin_one _ h3, F32.add_fin_zero _ h0, F32.add_fin_zero _ h1,
      F32.add_fin_zero _ h2, F32.add_fin_zero _ h3]

/-- Instance of C6 (as the code has it): the bounds `-1, 1, -1, 1` under scale
`1` and zero shifts. -/
theorem scaleAndShift_affine_witness :
    ((F32.fin (-1)).representable ∧ (F32.fin 1).representable)
    ∧ scaleAndShift (F32.fin (-1)) (F32.fin 1) (F32.fin (-1)) (F32.fin 1) (F32.fin 1)
        (F32.fin 0) (F32.fin 0)
      = { x0 := F32.fin (-1), x1 := F32.fin 1, y0 := F32.fin (-1), y1 := F32.fin 1 } :=
  ⟨⟨lit_y0, lit_y1⟩,
   (scaleAndShift_affine (F32.fin (-1)) (F32.fin 1) (F32.fin (-1)) (F32.fin 1) (F32.fin 1)
      (F32.fin 0) (F32.fin 0)).2.2.2.2.2.2.2 lit_y0 lit_y1 lit_y0 lit_y1⟩

/-- C6 as stated fails on the code, which computes in binary32.  With
`x1 = 1`, `scale = 1` and `shiftX = 2^30` the result is `2^30`, not
`1 * 1 + 2^30`; with `x0 = -2.167f`, `scale = 0.01f` and `shiftX = 0` the
result is `-11633993 / 2^29`, not `-0.02167`. -/
theorem scaleAndShift_not_exact :
    ((scaleAndShift (F32.fin 0) (F32.fin 1) (F32.fin 0) (F32.fin 1) (F32.fin 1)
        (F32.fin 1073741824) (F32.fin 0)).x1 = F32.fin 1073741824
      ∧ F32.fin 1073741824 ≠ F32.fin (1 * 1 + 1073741824))
    ∧ ((scaleAndShift (F32.ofRat (-2.167)) (F32.ofRat 1.167) (F32.ofRat (-1)) (F32.ofRat 1)
        (F32.ofRat 0.01) (F32.ofRat 0.0) (F32.ofRat 0.0)).x0
          = F32.fin (-11633993 / 536870912)
      ∧ F32.fin (-11633993 / 536870912) ≠ F32.fin (-0.02167)) := by
  refine ⟨⟨?_, ?_⟩, ⟨?_, ?_⟩⟩
  · simp only [scaleAndShift, mul_one_one, add_one_big]
  · norm_num
  · simp only [scaleAndShift, lit_x0, lit_0_01, lit_0_0, mul_x0_view0, add_x0_view0]
  · norm_num

/-- C10, as the code has it.  Under a positive finite scale and finite shifts,
bounds with `x0 < x1` and `y0 < y1` are mapped to bounds with `x0 <= x1` and
`y0 <= y1`: rounding can make them equal.  For every accepted view index the
three preset lookups are in bounds, the scale is positive, and the default
viewport is mapped to one with `x0 < x1` and `y0 < y1`.  A scale that is zero
or negative maps no viewport with `x0 < x1`, `y0 < y1` to one with `x0 < x1`
or with `y0 < y1`. -/
theorem scaleAndShift_preserves_order :
    (∀ (x0 x1 y0 y1 : F32) (scale shiftX shiftY : ℚ), F32.lt x0 x1 → F32.lt y0 y1 →
        0 < scale →
        F32.le (scaleAndShift x0 x1 y0 y1 (F32.fin scale) (F32.fin shiftX) (F32.fin shiftY)).x0
          (scaleAndShift x0 x1 y0 y1 (F32.fin scale) (F32.fin shiftX) (F32.fin shiftY)).x1
        ∧ F32.le
          (scaleAndShift x0 x1 y0 y1 (F32.fin scale) (F32.fin shiftX) (F32.fin shiftY)).y0
          (scaleAndShift x0 x1 y0 y1 (F32.fin scale) (F32.fin shiftX) (F32.fin shiftY)).y1)
    ∧ (∀ v : Int, 0 ≤ v → v < VIEWCNT →
        v.toNat < scaleValues.length ∧ v.toNat < shiftXs.length
        ∧ v.toNat < shiftYs.length
        ∧ F32.lt (F32.fin 0) (scaleValues.getD v.toNat (F32.fin 0))
        ∧ F32.lt (viewport { initLocals with viewIndex := v }).x0
          (viewport { initLocals with viewIndex := v }).x1
        ∧ F32.lt (viewport { initLocals with viewIndex := v }).y0
          (viewport { initLocals with viewIndex := v }).y1)
    ∧ (∀ x0 x1 y0 y1 scale shiftX shiftY : F32, F32.lt x0 x1 → F32.lt y0 y1 →
        F32.le scale (F32.fin 0) →
        ¬ F32.lt (scaleAndShift x0 x1 y0 y1 scale shiftX shiftY).x0
          (scaleAndShift x0 x1 y0 y1 scale shiftX shiftY).x1
        ∧ ¬ F32.lt (scaleAndShift x0 x1 y0 y1 scale shiftX shiftY).y0
          (scaleAndShift x0 x1 y0 y1 scale shiftX shiftY).y1) := by
  refine ⟨?_, ?_, ?_⟩
  · intro x0 x1 y0 y1 scale shiftX shiftY hx hy hs
    exact scaleAndShift_le x0 x1 y0 y1 scale shiftX shiftY hx hy hs
  · intro v h0 h7
    obtain ⟨h1, h2, h3, s, t, u, hs, e1, -, -⟩ := presets_finite v h0 h7
    obtain ⟨o1, o2⟩ := viewport_default_ordered v h0 h7
    refine ⟨h1, h2, h3, ?_, o1, o2⟩
    rw [e1]
    exact hs
  · intro x0 x1 y0 y1 scale shiftX shiftY hx hy hs
    exact ⟨F32.add_not_lt _ _ _ (F32.mul_nonpos_anti x0 x1 scale hs hx),
      F32.add_not_lt _ _ _ (F32.mul_nonpos_anti y0 y1 scale hs hy)⟩

/-- Instance of C10 (as the code has it): the bounds `0, 1` under scale `1`
and shift `2^30` stay in weak order, the preset of view 6 is positive, and
scale `-1` leaves no strict order. -/
theorem scaleAndShift_preserves_order_witness :
    (F32.lt (F32.fin 0) (F32.fin 1) ∧ (0 : ℚ) < 1)
    ∧ F32.le
        (scaleAndShift (F32.fin 0) (F32.fin 1) (F32.fin 0) (F32.fin 1) (F32.fin 1)
          (F32.fin 1073741824) (F32.fin 0)).x0
        (scaleAndShift (F32.fin 0) (F32.fin 1) (F32.fin 0) (F32.fin 1) (F32.fin 1)
          (F32.fin 1073741824) (F32.fin 0)).x1
    ∧ F32.lt (F32.fin 0) (scaleValues.getD (6 : Int).toNat (F32.fin 0))
    ∧ ¬ F32.lt
        (scaleAndShift (F32.fin 0) (F32.fin 1) (F32.fin 0) (F32.fin 1) (F32.fin (-1))
          (F32.fin 0) (F32.fin 0)).x0
        (scaleAndShift (F32.fin 0) (F32.fin 1) (F32.fin 0) (F32.fin 1) (F32.fin (-1))
          (F32.fin 0) (F32.fin 0)).x1 :=
  ⟨⟨by norm_num [F32.lt], by norm_num⟩,
   (scaleAndShift_preserves_order.1 (F32.fin 0) (F32.fin 1) (F32.fin 0) (F32.fin 1) 1
      1073741824 0 (by norm_num [F32.lt]) (by norm_num [F32.lt]) (by norm_num)).1,
   (scaleAndShift_preserves_order.2.1 6 (by decide) (by decide)).2.2.2.1,
   (scaleAndShift_preserves_order.2.2 (F32.fin 0) (F32.fin 1) (F32.fin 0) (F32.fin 1)
      (F32.fin (-1)) (F32.fin 0) (F32.fin 0) (by norm_num [F32.lt]) (by norm_num [F32.lt])
      (by norm_num [F32.le])).1⟩

/-- C10 as stated fails on the code, which computes in binary32: the bounds
`x0 = 0 < x1 = 1` under scale `1` and shift `2^30` are both mapped to `2^30`,
so the strict order is lost and the width is not multiplied by the scale. -/
theorem scaleAndShift_collapses_order :
    (F32.lt (F32.fin 0) (F32.fin 1) ∧ F32.lt (F32.fin 0) (F32.fin 1))
    ∧ (scaleAndShift (F32.fin 0) (F32.fin 1) (F32.fin 0) (F32.fin 1) (F32.fin 1)
        (F32.fin 1073741824) (F32.fin 0)).x0 = F32.fin 1073741824
    ∧ (scaleAndShift (F32.fin 0) (F32.fin 1) (F32.fin 0) (F32.fin 1) (F32.fin 1)
        (F32.fin 1073741824) (F32.fin 0)).x1 = F32.fin 1073741824
    ∧ ¬ F32.lt
        (scaleAndShift (F32.fin 0) (F32.fin 1) (F32.fin 0) (F32.fin 1) (F32.fin 1)
          (F32.fin 1073741824) (F32.fin 0)).x0
        (scaleAndShift (F32.fin 0) (F32.fin 1) (F32.fin 0) (F32.fin 1) (F32.fin 1)
          (F32.fin 1073741824) (F32.fin 0)).x1 := by
  have e0 : (scaleAndShift (F32.fin 0) (F32.fin 1) (F32.fin 0) (F32.fin 1) (F32.fin 1)
      (F32.fin 1073741824) (F32.fin 0)).x0 = F32.fin 1073741824 := by
    simp only [scaleAndShift, mul_zero_one, add_zero_big]
  have e1 : (scaleAndShift (F32.fin 0) (F32.fin 1) (F32.fin 0) (F32.fin 1) (F32.fin 1)
      (F32.fin 1073741824) (F32.fin 0)).x1 = F32.fin 1073741824 := by
    simp only [scaleAndShift, mul_one_one, add_one_big]
  refine ⟨⟨by norm_num [F32.lt], by norm_num [F32.lt]⟩, e0, e1, ?_⟩
  rw [e0, e1]
  norm_num [F32.lt]

/-! ## The timing loops -/

theorem benchLoop_three (run : Buffer → Buffer) (call : Call) (clock : Nat → ℚ) (s : Bench) :
    (benchLoop run call clock 3 s).minTime
        = stdMin (stdMin (stdMin s.minTime (clock (s.ticks + 1) - clock s.ticks))
            (clock (s.ticks + 3) - clock (s.ticks + 2)))
            (clock (s.ticks + 5) - clock (s.ticks + 4))
    ∧ (benchLoop run call clock 3 s).output = run (run (run s.output))
    ∧ (benchLoop run call clock 3 s).ticks = s.ticks + 6
    ∧ (benchLoop run call clock 3 s).calls = s.calls ++ [call, call, call] := by
  simp [benchLoop, Nat.add_assoc]

theorem main_of_parsed (env : Env) (args : List Opt) (s : Locals)
    (hp : parseOptions args initLocals = Except.ok s) :
    main env args
      = if s.have_file then fastPath env s (viewport s) else comparison env s (viewport s) := by
  simp [main, hp]

theorem main_of_rejected (env : Env) (args : List Opt) (e : Int × List Line)
    (hp : parseOptions args initLocals = Except.error e) :
    main env args = { status := e.1, printed := e.2, calls := [], images := [] } := by
  simp [main, hp]

theorem parseOptions_error_status (args : List Opt) :
    ∀ (s : Locals) (e : Int × List Line), parseOptions args s = Except.error e → e.1 = 1 := by
  induction args with
  | nil => intro s e h; simp [parseOptions] at h
  | cons o rest ih =>
    intro s e h
    cases o with
    | threads n => exact ih _ e (by simpa [parseOptions] using h)
    | view n =>
      simp only [parseOptions] at h
      split at h
      · cases h; rfl
      · exact ih _ e h
    | field r =>
      cases r with
      | none => simp only [parseOptions] at h; cases h; rfl
      | some q =>
        obtain ⟨a, b, c, d⟩ := q
        exact ih _ e (by simpa [parseOptions] using h)
    | out name => exact ih _ e (by simpa [parseOptions] using h)
    | help => simp only [parseOptions] at h; cases h; rfl

/-- The option loop succeeds exactly when no view index is out of range, no
field fails to parse and no help or unknown option occurs. -/
theorem parseOptions_ok_iff (args : List Opt) :
    ∀ s : Locals, (∃ s', parseOptions args s = Except.ok s') ↔
      ((∀ n, Opt.view n ∈ args → 0 ≤ n ∧ n < VIEWCNT)
        ∧ Opt.field none ∉ args ∧ Opt.help ∉ args) := by
  induction args with
  | nil => intro s; simp [parseOptions]
  | cons o rest ih =>
    intro s
    cases o with
    | threads n => simp [parseOptions, ih]
    | view n =>
      by_cases hn : n < 0 ∨ n ≥ VIEWCNT
      · simp only [parseOptions, if_pos hn]
        constructor
        · rintro ⟨s', h⟩
          cases h
        · rintro ⟨h, -⟩
          have := h n (List.mem_cons_self _ _)
          omega
      · simp only [parseOptions, if_neg hn, ih]
        constructor
        · rintro ⟨h1, h2, h3⟩
          refine ⟨?_, ?_, ?_⟩
          · intro m hm
            rcases List.mem_cons.1 hm with h | h
            · cases h
              omega
            · exact h1 m h
          · intro hm
            rcases List.mem_cons.1 hm with h | h
            · cases h
            · exact h2 h
          · intro hm
            rcases List.mem_cons.1 hm with h | h
            · cases h
            · exact h3 h
        · rintro ⟨h1, h2, h3⟩
          exact ⟨fun m hm => h1 m (List.mem_cons_of_mem _ hm),
            fun hm => h2 (List.mem_cons_of_mem _ hm),
            fun hm => h3 (List.mem_cons_of_mem _ hm)⟩
    | field r =>
      cases r with
      | none => simp [parseOptions]
      | some q =>
        obtain ⟨a, b, c, d⟩ := q
        simp [parseOptions, ih]
    | out name => simp [parseOptions, ih]
    | help => simp [parseOptions]

/-- What the option loop keeps: an accepted view index, and, when every `-t`
value is at least `1` and every field is ordered, a thread count of at least
`1` and ordered bounds. -/
theorem parseOptions_keeps (args : List Opt) :
    ∀ (s s' : Locals), parseOptions args s = Except.ok s' →
      ((0 ≤ s.viewIndex ∧ s.viewIndex < VIEWCNT) → 0 ≤ s'.viewIndex ∧ s'.viewIndex < VIEWCNT)
      ∧ ((∀ n, Opt.threads n ∈ args → 1 ≤ n) → 1 ≤ s.numThreads → 1 ≤ s'.numThreads)
      ∧ ((∀ a b c d, Opt.field (some (a, b, c, d)) ∈ args → F32.lt a c ∧ F32.lt b d) →
          (F32.lt s.x0 s.x1 ∧ F32.lt s.y0 s.y1) → F32.lt s'.x0 s'.x1 ∧ F32.lt s'.y0 s'.y1) := by
  induction args with
  | nil =>
    intro s s' h
    simp only [parseOptions, Except.ok.injEq] at h
    subst h
    exact ⟨id, fun _ h => h, fun _ h => h⟩
  | cons o rest ih =>
    intro s s' h
    cases o with
    | threads n =>
      obtain ⟨h1, h2, h3⟩ := ih _ s' (by simpa [parseOptions] using h)
      refine ⟨h1, ?_, fun hf hs => h3 (fun a b c d hm => hf a b c d (List.mem_cons_of_mem _ hm)) hs⟩
      intro ht _
      exact h2 (fun n hm => ht n (List.mem_cons_of_mem _ hm)) (ht n (List.mem_cons_self _ _))
    | view n =>
      simp only [parseOptions] at h
      split at h
      · cases h
      · rename_i hn
        obtain ⟨h1, h2, h3⟩ := ih _ s' h
        refine ⟨fun _ => h1 ⟨by simp only []; omega, by simp only []; omega⟩,
          fun ht hs => h2 (fun n hm => ht n (List.mem_cons_of_mem _ hm)) hs,
          fun hf hs => h3 (fun a b c d hm => hf a b c d (List.mem_cons_of_mem _ hm)) hs⟩
    | field r =>
      cases r with
      | none => simp [parseOptions] at h
      | some q =>
        obtain ⟨a, b, c, d⟩ := q
        obtain ⟨h1, h2, h3⟩ := ih _ s' (by simpa [parseOptions] using h)
        refine ⟨h1, fun ht hs => h2 (fun n hm => ht n (List.mem_cons_of_mem _ hm)) hs, ?_⟩
        intro hf _
        exact h3 (fun a b c d hm => hf a b c d (List.mem_cons_of_mem _ hm))
          (hf a b c d (List.mem_cons_self _ _))
    | out name =>
      obtain ⟨h1, h2, h3⟩ := ih _ s' (by simpa [parseOptions] using h)
      exact ⟨h1, fun ht hs => h2 (fun n hm => ht n (List.mem_cons_of_mem _ hm)) hs,
        fun hf hs => h3 (fun a b c d hm => hf a b c d (List.mem_cons_of_mem _ hm)) hs⟩
    | help => simp [parseOptions] at h

theorem speedup_not_mem_verifyRun (gold result : Buffer) (width height : Int) (r : ℚ)
    (n : Int) : Line.speedup r n ∉ (verifyRun gold result width height).1.printed := by
  obtain ⟨-, hpr, -, -⟩ := verifyRun_spec gold result width height
  intro hmem
  rw [hpr] at hmem
  rcases List.mem_append.1 hmem with h | h
  · obtain ⟨c, -, hc⟩ := List.mem_map.1 h
    cases hc
  · split at h <;> simp at h

theorem error_not_mem_verifyRun (gold result : Buffer) (width height : Int) :
    Line.error ∉ (verifyRun gold result width height).1.printed := by
  obtain ⟨-, hpr, -, -⟩ := verifyRun_spec gold result width height
  intro hmem
  rw [hpr] at hmem
  rcases List.mem_append.1 hmem with h | h
  · obtain ⟨c, -, hc⟩ := List.mem_map.1 h
    cases hc
  · split at h <;> simp at h

theorem comparison_calls (env : Env) (s : Locals) (b : Bounds) :
    (comparison env s b).calls
      = [Call.serial b.x0 b.y0 b.x1 b.y1 600 599 0 599 256,
         Call.serial b.x0 b.y0 b.x1 b.y1 600 599 0 599 256,
         Call.serial b.x0 b.y0 b.x1 b.y1 600 599 0 599 256,
         Call.thread s.numThreads b.x0 b.y0 b.x1 b.y1 600 599 256,
         Call.thread s.numThreads b.x0 b.y0 b.x1 b.y1 600 599 256,
         Call.thread s.numThreads b.x0 b.y0 b.x1 b.y1 600 599 256] := by
  have h : (comparison env s b).calls = (threadBench env s b).calls := by
    simp only [comparison]
    split <;> rfl
  rw [h]
  simp [threadBench, serialBench, (benchLoop_three _ _ _ _).2.2.2, width, height, iheight,
    maxIterations]

theorem comparison_status (env : Env) (s : Locals) (b : Bounds) :
    (comparison env s b).status
      = if verifyResult (serialBench env b).output (threadBench env s b).output width height
        then 0 else 1 := by
  simp only [comparison, verifyResult]
  split <;> simp_all

theorem comparison_printed (env : Env) (s : Locals) (b : Bounds) :
    (comparison env s b).printed
      = [Line.serialTime ((serialBench env b).minTime * 1000),
          Line.threadTime ((threadBench env s b).minTime * 1000)]
        ++ (verifyRun (serialBench env b).output (threadBench env s b).output
              width height).1.printed
        ++ [if verifyResult (serialBench env b).output (threadBench env s b).output
              width height
            then Line.speedup ((serialBench env b).minTime / (threadBench env s b).minTime)
              s.numThreads
            else Line.error] := by
  simp only [comparison, verifyResult]
  split <;> simp_all

/-- C3. In comparison mode `main` returns `0` exactly when `verifyResult`
returned `true` on the serial and the threaded buffer, and `1` otherwise; the
speedup line is printed exactly when the status is `0`, and the error line
exactly when it is not. -/
theorem main_status_iff_verified (env : Env) (args : List Opt) (s : Locals)
    (hp : parseOptions args initLocals = Except.ok s) (hf : s.have_file = false) :
    ((main env args).status = 0 ↔
        verifyResult (serialBench env (viewport s)).output
          (threadBench env s (viewport s)).output width height = true)
    ∧ (verifyResult (serialBench env (viewport s)).output
          (threadBench env s (viewport s)).output width height = false →
        (main env args).status = 1)
    ∧ ((∃ r n, Line.speedup r n ∈ (main env args).printed) ↔ (main env args).status = 0)
    ∧ (Line.error ∈ (main env args).printed ↔ (main env args).status ≠ 0) := by
  have hm : main env args = comparison env s (viewport s) := by
    rw [main_of_parsed env args s hp, hf]
    rfl
  have hsp := speedup_not_mem_verifyRun (serialBench env (viewport s)).output
    (threadBench env s (viewport s)).output width height
  have her := error_not_mem_verifyRun (serialBench env (viewport s)).output
    (threadBench env s (viewport s)).output width height
  rw [hm, comparison_status, comparison_printed]
  cases hv : verifyResult (serialBench env (viewport s)).output
      (threadBench env s (viewport s)).output width height
  · simp [hsp, her]
  · simp [hsp, her]

/-- Instance of C3: the command line `-t 4` is accepted and selects the
comparison mode. -/
theorem main_status_iff_verified_witness :
    (parseOptions [Opt.threads 4] initLocals = Except.ok { initLocals with numThreads := 4 }
      ∧ ({ initLocals with numThreads := 4 } : Locals).have_file = false)
    ∧ ((∃ r n, Line.speedup r n ∈ (main (sampleEnv 7) [Opt.threads 4]).printed)
        ↔ (main (sampleEnv 7) [Opt.threads 4]).status = 0) :=
  ⟨⟨rfl, rfl⟩,
   (main_status_iff_verified (sampleEnv 7) [Opt.threads 4]
      { initLocals with numThreads := 4 } rfl rfl).2.2.1⟩

theorem bench_outputs (env : Env) (s : Locals) (b : Bounds) :
    (serialBench env b).output
        = env.mandelbrotSerial b.x0 b.y0 b.x1 b.y1 600 599 0 599 256
            (env.mandelbrotSerial b.x0 b.y0 b.x1 b.y1 600 599 0 599 256
              (env.mandelbrotSerial b.x0 b.y0 b.x1 b.y1 600 599 0 599 256
                (zeroFill (env.fresh 0) (600 * 600))))
    ∧ (threadBench env s b).output
        = env.mandelbrotThread s.numThreads b.x0 b.y0 b.x1 b.y1 600 599 256
            (env.mandelbrotThread s.numThreads b.x0 b.y0 b.x1 b.y1 600 599 256
              (env.mandelbrotThread s.numThreads b.x0 b.y0 b.x1 b.y1 600 599 256
                (zeroFill (env.fresh 1) (600 * 600)))) := by
  constructor
  · simp [serialBench, (benchLoop_three _ _ _ _).2.1, width, height, iheight, maxIterations]
  · simp [threadBench, (benchLoop_three _ _ _ _).2.1, width, height, iheight, maxIterations]

/-- When the evaluator calls of `main` write only cells of rows `[0, 599)`, the
cells of the canvas past the `600 x 599` image are still zero in both buffers
after the runs. -/
theorem bench_outputs_last_row (env : Env) (s : Locals) (b : Bounds)
    (fS : ∀ (buf : Buffer) (k : Int), ¬ (0 ≤ k ∧ k < 599 * 600) →
      env.mandelbrotSerial b.x0 b.y0 b.x1 b.y1 600 599 0 599 256 buf k = buf k)
    (fT : ∀ (buf : Buffer) (k : Int), ¬ (0 ≤ k ∧ k < 599 * 600) →
      env.mandelbrotThread s.numThreads b.x0 b.y0 b.x1 b.y1 600 599 256 buf k = buf k)
    (k : Int) (h1 : 600 * 599 ≤ k) (h2 : k < 600 * 600) :
    (serialBench env b).output k = 0 ∧ (threadBench env s b).output k = 0 := by
  obtain ⟨hS, hT⟩ := bench_outputs env s b
  have hz : ∀ f : Buffer, zeroFill f (600 * 600) k = 0 := by
    intro f
    simp only [zeroFill]
    rw [if_pos ⟨by omega, h2⟩]
  constructor
  · rw [hS, fS _ k (by omega), fS _ k (by omega), fS _ k (by omega)]
    exact hz _
  · rw [hT, fT _ k (by omega), fT _ k (by omega), fT _ k (by omega)]
    exact hz _

theorem framed_at_main (env : Env) (hfr : env.framed) (s : Locals) (b : Bounds) :
    (∀ (buf : Buffer) (k : Int), ¬ (0 ≤ k ∧ k < 599 * 600) →
      env.mandelbrotSerial b.x0 b.y0 b.x1 b.y1 600 599 0 599 256 buf k = buf k)
    ∧ (∀ (buf : Buffer) (k : Int), ¬ (0 ≤ k ∧ k < 599 * 600) →
      env.mandelbrotThread s.numThreads b.x0 b.y0 b.x1 b.y1 600 599 256 buf k = buf k) := by
  constructor
  · intro buf k hk
    exact hfr.1 _ _ _ _ _ _ _ _ _ buf k (by omega)
  · intro buf k hk
    exact hfr.2 _ _ _ _ _ _ _ _ buf k (by omega)

/-- C4. In comparison mode the evaluators are called on the `600 x 599` image
and work in canvas buffers of `600 x 600` cells that were zero-filled; when
the evaluators write only rows `[0, 599)`, the verdict of the verification of
`main` is that of `verifyResult` on the `600 x 599` image, and `main` succeeds
exactly when the buffers agree on every cell of that image; and a difference
between the two buffers in canvas row 599 makes the verification fail. -/
theorem main_verifies_canvas (env : Env) (args : List Opt) (s : Locals)
    (hp : parseOptions args initLocals = Except.ok s) (hf : s.have_file = false) :
    (main env args).calls
        = [Call.serial (viewport s).x0 (viewport s).y0 (viewport s).x1 (viewport s).y1
              600 599 0 599 256,
           Call.serial (viewport s).x0 (viewport s).y0 (viewport s).x1 (viewport s).y1
              600 599 0 599 256,
           Call.serial (viewport s).x0 (viewport s).y0 (viewport s).x1 (viewport s).y1
              600 599 0 599 256,
           Call.thread s.numThreads (viewport s).x0 (viewport s).y0 (viewport s).x1
              (viewport s).y1 600 599 256,
           Call.thread s.numThreads (viewport s).x0 (viewport s).y0 (viewport s).x1
              (viewport s).y1 600 599 256,
           Call.thread s.numThreads (viewport s).x0 (viewport s).y0 (viewport s).x1
              (viewport s).y1 600 599 256]
    ∧ (serialBench env (viewport s)).output
        = env.mandelbrotSerial (viewport s).x0 (viewport s).y0 (viewport s).x1 (viewport s).y1
            600 599 0 599 256
            (env.mandelbrotSerial (viewport s).x0 (viewport s).y0 (viewport s).x1
              (viewport s).y1 600 599 0 599 256
              (env.mandelbrotSerial (viewport s).x0 (viewport s).y0 (viewport s).x1
                (viewport s).y1 600 599 0 599 256
                (zeroFill (env.fresh 0) (600 * 600))))
    ∧ (threadBench env s (viewport s)).output
        = env.mandelbrotThread s.numThreads (viewport s).x0 (viewport s).y0 (viewport s).x1
            (viewport s).y1 600 599 256
            (env.mandelbrotThread s.numThreads (viewport s).x0 (viewport s).y0 (viewport s).x1
              (viewport s).y1 600 599 256
              (env.mandelbrotThread s.numThreads (viewport s).x0 (viewport s).y0
                (viewport s).x1 (viewport s).y1 600 599 256
                (zeroFill (env.fresh 1) (600 * 600))))
    ∧ ((∀ (buf : Buffer) (k : Int), ¬ (0 ≤ k ∧ k < 599 * 600) →
          env.mandelbrotSerial (viewport s).x0 (viewport s).y0 (viewport s).x1 (viewport s).y1
            600 599 0 599 256 buf k = buf k) →
        (∀ (buf : Buffer) (k : Int), ¬ (0 ≤ k ∧ k < 599 * 600) →
          env.mandelbrotThread s.numThreads (viewport s).x0 (viewport s).y0 (viewport s).x1
            (viewport s).y1 600 599 256 buf k = buf k) →
        verifyResult (serialBench env (viewport s)).output
            (threadBench env s (viewport s)).output 600 600
          = verifyResult (serialBench env (viewport s)).output
            (threadBench env s (viewport s)).output 600 599
        ∧ ((main env args).status = 0 ↔
            ∀ i j : Int, 0 ≤ i → i < 599 → 0 ≤ j → j < 600 →
              (serialBench env (viewport s)).output (i * 600 + j)
                = (threadBench env s (viewport s)).output (i * 600 + j)))
    ∧ (∀ j : Int, 0 ≤ j → j < 600 →
        (serialBench env (viewport s)).output (599 * 600 + j)
          ≠ (threadBench env s (viewport s)).output (599 * 600 + j) →
        (main env args).status = 1 ∧ Line.error ∈ (main env args).printed) := by
  have hm : main env args = comparison env s (viewport s) := by
    rw [main_of_parsed env args s hp, hf]
    rfl
  have hst := comparison_status env s (viewport s)
  have hprt := comparison_printed env s (viewport s)
  obtain ⟨hS, hT⟩ := bench_outputs env s (viewport s)
  refine ⟨by rw [hm, comparison_calls], hS, hT, ?_, ?_⟩
  · intro fS fT
    have hrow := bench_outputs_last_row env s (viewport s) fS fT
    have h600 := verifyResult_iff (serialBench env (viewport s)).output
      (threadBench env s (viewport s)).output 600 600
    have h599 := verifyResult_iff (serialBench env (viewport s)).output
      (threadBench env s (viewport s)).output 600 599
    have hequiv : (∀ i j : Int, 0 ≤ i → i < 600 → 0 ≤ j → j < 600 →
          (serialBench env (viewport s)).output (i * 600 + j)
            = (threadBench env s (viewport s)).output (i * 600 + j))
        ↔ (∀ i j : Int, 0 ≤ i → i < 599 → 0 ≤ j → j < 600 →
          (serialBench env (viewport s)).output (i * 600 + j)
            = (threadBench env s (viewport s)).output (i * 600 + j)) := by
      constructor
      · intro h i j hi0 hi hj0 hj
        exact h i j hi0 (by omega) hj0 hj
      · intro h i j hi0 hi hj0 hj
        by_cases hlast : i < 599
        · exact h i j hi0 hlast hj0 hj
        · obtain ⟨e1, e2⟩ := hrow (i * 600 + j) (by omega) (by omega)
          rw [e1, e2]
    constructor
    · rw [Bool.eq_iff_iff, h600, h599]
      exact hequiv
    · rw [hm, hst, ← hequiv, ← h600]
      simp [width, height]
  · intro j hj0 hj hne
    have hfalse : verifyResult (serialBench env (viewport s)).output
        (threadBench env s (viewport s)).output width height = false := by
      rw [Bool.eq_false_iff]
      intro htrue
      exact hne ((verifyResult_iff _ _ _ _).1 htrue 599 j (by norm_num) (by norm_num [height])
        hj0 (by simpa [width] using hj))
    rw [hm, hst, hprt, hfalse]
    simp

theorem sampleEnv_framed (garbage : Int) : (sampleEnv garbage).framed := by
  constructor
  · intro x0 y0 x1 y1 w h startRow numRows mi buf k hk
    simp only [sampleEnv]
    rw [if_neg hk]
  · intro n x0 y0 x1 y1 w h mi buf k hk
    simp only [sampleEnv]
    rw [if_neg hk]

theorem sampleEnv_inRange (garbage : Int) : (sampleEnv garbage).inRange := by
  constructor
  · intro x0 y0 x1 y1 w h startRow numRows mi buf k hmi h1 h2
    simp only [sampleEnv]
    rw [if_pos ⟨h1, h2⟩]
    exact ⟨hmi, le_refl _⟩
  · intro n x0 y0 x1 y1 w h mi buf k hmi h1 h2
    simp only [sampleEnv]
    rw [if_pos ⟨h1, h2⟩]
    exact ⟨hmi, le_refl _⟩

/-- Instance of C4: with the sample evaluators and no option, the verdict on
the canvas is the verdict on the image, and `main` returns `0`. -/
theorem main_verifies_canvas_witness :
    (parseOptions [] initLocals = Except.ok initLocals ∧ initLocals.have_file = false)
    ∧ verifyResult (serialBench (sampleEnv 7) (viewport initLocals)).output
          (threadBench (sampleEnv 7) initLocals (viewport initLocals)).output 600 600
        = verifyResult (serialBench (sampleEnv 7) (viewport initLocals)).output
          (threadBench (sampleEnv 7) initLocals (viewport initLocals)).output 600 599
    ∧ (main (sampleEnv 7) []).status = 0 :=
  ⟨⟨rfl, rfl⟩,
   ((main_verifies_canvas (sampleEnv 7) [] initLocals rfl rfl).2.2.2.1
      (framed_at_main _ (sampleEnv_framed 7) initLocals _).1
      (framed_at_main _ (sampleEnv_framed 7) initLocals _).2).1,
   ((main_verifies_canvas (sampleEnv 7) [] initLocals rfl rfl).2.2.2.1
      (framed_at_main _ (sampleEnv_framed 7) initLocals _).1
      (framed_at_main _ (sampleEnv_framed 7) initLocals _).2).2.2 (by
        intro i j hi0 hi hj0 hj
        obtain ⟨hS, hT⟩ := bench_outputs (sampleEnv 7) initLocals (viewport initLocals)
        rw [hS, hT]
        simp only [sampleEnv]
        rw [if_pos ⟨by omega, by omega⟩, if_pos ⟨by omega, by omega⟩])⟩

theorem initLocals_ordered :
    F32.lt initLocals.x0 initLocals.x1 ∧ F32.lt initLocals.y0 initLocals.y1 := by
  simp only [initLocals, lit_x0, lit_x1, lit_y0, lit_y1]
  constructor <;> norm_num [F32.lt]

/-- Without a field option the option loop leaves the bounds as they were. -/
theorem parseOptions_no_field (args : List Opt) :
    ∀ (s s' : Locals), parseOptions args s = Except.ok s' → (∀ r, Opt.field r ∉ args) →
      s'.x0 = s.x0 ∧ s'.x1 = s.x1 ∧ s'.y0 = s.y0 ∧ s'.y1 = s.y1 := by
  induction args with
  | nil =>
    intro s s' h _
    simp only [parseOptions, Except.ok.injEq] at h
    subst h
    exact ⟨rfl, rfl, rfl, rfl⟩
  | cons o rest ih =>
    intro s s' h hno
    have hrest : ∀ r, Opt.field r ∉ rest := fun r hm => hno r (List.mem_cons_of_mem _ hm)
    cases o with
    | threads n =>
      exact ih { s with numThreads := n } s' (by simpa [parseOptions] using h) hrest
    | view n =>
      simp only [parseOptions] at h
      split at h
      · cases h
      · exact ih { s with viewIndex := n } s' h hrest
    | field r => exact absurd (List.mem_cons_self _ _) (hno r)
    | out name =>
      exact ih { s with fname := name, have_file := true } s'
        (by simpa [parseOptions] using h) hrest
    | help => simp [parseOptions] at h

/-- The viewport of `main` depends on the bounds and the view index only. -/
theorem viewport_congr (s t : Locals) (h0 : s.x0 = t.x0) (h1 : s.x1 = t.x1) (h2 : s.y0 = t.y0)
    (h3 : s.y1 = t.y1) (hv : s.viewIndex = t.viewIndex) : viewport s = viewport t := by
  simp only [viewport, h0, h1, h2, h3, hv]

/-- C7, as the code has it.  Every evaluator call of `main` has resolution
`600 x 599`.  When every `-t` value is at least `1` and every `-f` field has
`x0 < x1` and `y0 < y1`, every call has a thread count of at least `1`, a
positive resolution and bounds with `x0 <= x1` and `y0 <= y1`: the rounding
in `scaleAndShift` can make the bounds equal.  With no `-f` option the bounds
are those of the default viewport and are strictly ordered.  `main` leaves
with status `1` and without any call exactly when some view index is out of
range, some field does not parse or a help or unknown option occurs: the
values of `-t` and the order of the bounds play no part in it. -/
theorem main_calls_valid_of_valid_options (env : Env) (args : List Opt) :
    (∀ c ∈ (main env args).calls, c.resolution = (600, 599))
    ∧ ((∀ n, Opt.threads n ∈ args → 1 ≤ n) →
        (∀ a b c d, Opt.field (some (a, b, c, d)) ∈ args → F32.lt a c ∧ F32.lt b d) →
        ∀ c ∈ (main env args).calls, c.weaklyValid)
    ∧ ((∀ n, Opt.threads n ∈ args → 1 ≤ n) → (∀ r, Opt.field r ∉ args) →
        ∀ c ∈ (main env args).calls, c.valid)
    ∧ (((main env args).calls = [] ∧ (main env args).status = 1) ↔
        ¬ ((∀ n, Opt.view n ∈ args → 0 ≤ n ∧ n < VIEWCNT)
            ∧ Opt.field none ∉ args ∧ Opt.help ∉ args)) := by
  cases hp : parseOptions args initLocals with
  | error e =>
    have hm := main_of_rejected env args e hp
    have hno : ¬ ((∀ n, Opt.view n ∈ args → 0 ≤ n ∧ n < VIEWCNT)
        ∧ Opt.field none ∉ args ∧ Opt.help ∉ args) := by
      intro h
      obtain ⟨s', hs'⟩ := (parseOptions_ok_iff args initLocals).2 h
      rw [hp] at hs'
      cases hs'
    rw [hm]
    refine ⟨by simp, by simp, by simp, ?_⟩
    simp only [true_and]
    exact ⟨fun _ => hno, fun _ => parseOptions_error_status args initLocals e hp⟩
  | ok s =>
    have hm := main_of_parsed env args s hp
    have hcalls : (main env args).calls
        = if s.have_file then
            [Call.thread s.numThreads (viewport s).x0 (viewport s).y0 (viewport s).x1
              (viewport s).y1 600 599 256]
          else (comparison env s (viewport s)).calls := by
      rw [hm]
      split <;> simp [fastPath, width, height, iheight, maxIterations]
    rw [comparison_calls] at hcalls
    have hyes : (∀ n, Opt.view n ∈ args → 0 ≤ n ∧ n < VIEWCNT)
        ∧ Opt.field none ∉ args ∧ Opt.help ∉ args :=
      (parseOptions_ok_iff args initLocals).1 ⟨s, hp⟩
    obtain ⟨kv, kt, kf⟩ := parseOptions_keeps args initLocals s hp
    have hv := kv (by simp [initLocals, VIEWCNT])
    refine ⟨?_, ?_, ?_, ?_⟩
    · intro c hc
      rw [hcalls] at hc
      split at hc
      · simp only [List.mem_singleton] at hc
        subst hc
        rfl
      · simp only [List.mem_cons, List.mem_singleton, List.not_mem_nil, or_false] at hc
        rcases hc with rfl | rfl | rfl | rfl | rfl | rfl <;> rfl
    · intro ht hfld c hc
      have hn := kt ht (by simp [initLocals])
      have hb := kf hfld initLocals_ordered
      obtain ⟨-, -, -, sv, tx, ty, hs, e1, e2, e3⟩ := presets_finite _ hv.1 hv.2
      have hord : F32.le (viewport s).x0 (viewport s).x1
          ∧ F32.le (viewport s).y0 (viewport s).y1 := by
        simp only [viewport, e1, e2, e3]
        exact scaleAndShift_le _ _ _ _ sv tx ty hb.1 hb.2 hs
      rw [hcalls] at hc
      split at hc
      · simp only [List.mem_singleton] at hc
        subst hc
        exact ⟨hn, by norm_num, by norm_num, hord.1, hord.2⟩
      · simp only [List.mem_cons, List.mem_singleton, List.not_mem_nil, or_false] at hc
        rcases hc with rfl | rfl | rfl | rfl | rfl | rfl
        all_goals first
          | exact ⟨by norm_num, by norm_num, hord.1, hord.2⟩
          | exact ⟨hn, by norm_num, by norm_num, hord.1, hord.2⟩
    · intro ht hnof c hc
      have hn := kt ht (by simp [initLocals])
      obtain ⟨b0, b1, b2, b3⟩ := parseOptions_no_field args initLocals s hp hnof
      have hvp : viewport s = viewport { initLocals with viewIndex := s.viewIndex } :=
        viewport_congr _ _ b0 b1 b2 b3 rfl
      have hord := viewport_default_ordered s.viewIndex hv.1 hv.2
      rw [← hvp] at hord
      rw [hcalls] at hc
      split at hc
      · simp only [List.mem_singleton] at hc
        subst hc
        exact ⟨hn, by norm_num, by norm_num, hord.1, hord.2⟩
      · simp only [List.mem_cons, List.mem_singleton, List.not_mem_nil, or_false] at hc
        rcases hc with rfl | rfl | rfl | rfl | rfl | rfl
        all_goals first
          | exact ⟨by norm_num, by norm_num, hord.1, hord.2⟩
          | exact ⟨hn, by norm_num, by norm_num, hord.1, hord.2⟩
    · constructor
      · rintro ⟨h, -⟩
        rw [hcalls] at h
        split at h <;> simp at h
      · intro h
        exact absurd hyes h

/-- Instance of C7 (as the code has it): `-t 8 -f -2:-1:1:1 -o out.ppm` leads
to a call with at least one thread and bounds in weak order, and
`-t 8 -o out.ppm` to a call that meets the preconditions of the core. -/
theorem main_calls_valid_of_valid_options_witness :
    (∀ c ∈ (main (sampleEnv 0)
        [Opt.threads 8, Opt.field (some (F32.fin (-2), F32.fin (-1), F32.fin 1, F32.fin 1)),
          Opt.out "out.ppm"]).calls, c.weaklyValid)
    ∧ (∀ c ∈ (main (sampleEnv 0) [Opt.threads 8, Opt.out "out.ppm"]).calls, c.valid) :=
  ⟨(main_calls_valid_of_valid_options (sampleEnv 0)
      [Opt.threads 8, Opt.field (some (F32.fin (-2), F32.fin (-1), F32.fin 1, F32.fin 1)),
        Opt.out "out.ppm"]).2.1
    (by
      intro n hn
      simp only [List.mem_cons, List.mem_singleton, List.not_mem_nil, or_false, reduceCtorEq,
        Opt.threads.injEq, false_or, or_false] at hn
      omega)
    (by
      intro a b c d h
      simp only [List.mem_cons, List.mem_singleton, List.not_mem_nil, or_false, reduceCtorEq,
        Opt.field.injEq, Option.some.injEq, Prod.mk.injEq, false_or, or_false] at h
      obtain ⟨rfl, rfl, rfl, rfl⟩ := h
      constructor <;> norm_num [F32.lt]),
   (main_calls_valid_of_valid_options (sampleEnv 0) [Opt.threads 8, Opt.out "out.ppm"]).2.2.1
    (by
      intro n hn
      simp only [List.mem_cons, List.mem_singleton, List.not_mem_nil, or_false, reduceCtorEq,
        Opt.threads.injEq, false_or, or_false] at hn
      omega)
    (by
      intro r hr
      simp only [List.mem_cons, List.mem_singleton, List.not_mem_nil, or_false, reduceCtorEq,
        false_or, or_false] at hr)⟩

/-- C7 as stated fails.  The command line `-t 0 -o out.ppm` is accepted
(status `0`) and calls `mandelbrotThread` with `numThreads = 0`;
`-f 1:0:0:1 -o out.ppm` is accepted and calls it with `x0 > x1`; and
`-v 2 -f 0:0:1e-10:1 -o out.ppm`, whose field is in order, is accepted and
calls it with `x0 = x1`. -/
theorem main_accepts_invalid_options :
    ((main (sampleEnv 0) [Opt.threads 0, Opt.out "out.ppm"]).status = 0
      ∧ (main (sampleEnv 0) [Opt.threads 0, Opt.out "out.ppm"]).calls
          = [Call.thread 0 (F32.fin (-11633993 / 536870912)) (F32.fin (-5368709 / 536870912))
            (F32.fin (12530567 / 1073741824)) (F32.fin (5368709 / 536870912)) 600 599 256]
      ∧ ¬ (Call.thread 0 (F32.fin (-11633993 / 536870912)) (F32.fin (-5368709 / 536870912))
            (F32.fin (12530567 / 1073741824)) (F32.fin (5368709 / 536870912)) 600 599 256).valid)
    ∧ ((main (sampleEnv 0)
          [Opt.field (some (F32.fin 1, F32.fin 0, F32.fin 0, F32.fin 1)),
            Opt.out "out.ppm"]).status = 0
      ∧ (main (sampleEnv 0)
          [Opt.field (some (F32.fin 1, F32.fin 0, F32.fin 0, F32.fin 1)),
            Opt.out "out.ppm"]).calls
          = [Call.thread 2 (F32.fin (5368709 / 536870912)) (F32.fin 0)
            (F32.fin 0) (F32.fin (5368709 / 536870912)) 600 599 256]
      ∧ ¬ (Call.thread 2 (F32.fin (5368709 / 536870912)) (F32.fin 0)
            (F32.fin 0) (F32.fin (5368709 / 536870912)) 600 599 256).valid)
    ∧ ((F32.lt (F32.fin 0) (F32.ofRat 1e-10) ∧ F32.lt (F32.fin 0) (F32.fin 1))
      ∧ (main (sampleEnv 0)
          [Opt.view 2, Opt.field (some (F32.fin 0, F32.fin 0, F32.ofRat 1e-10, F32.fin 1)),
            Opt.out "out.ppm"]).status = 0
      ∧ (main (sampleEnv 0)
          [Opt.view 2, Opt.field (some (F32.fin 0, F32.fin 0, F32.ofRat 1e-10, F32.fin 1)),
            Opt.out "out.ppm"]).calls
          = [Call.thread 2 (F32.fin (-2055209 / 2097152)) (F32.fin (5033165 / 16777216))
            (F32.fin (-2055209 / 2097152)) (F32.fin (5284823 / 16777216)) 600 599 256]
      ∧ ¬ (Call.thread 2 (F32.fin (-2055209 / 2097152)) (F32.fin (5033165 / 16777216))
            (F32.fin (-2055209 / 2097152)) (F32.fin (5284823 / 16777216)) 600 599 256).valid) := by
  refine ⟨⟨rfl, ?_, ?_⟩, ⟨rfl, ?_, ?_⟩, ⟨?_, rfl, ?_, ?_⟩⟩
  · show [Call.thread 0 (viewport { initLocals with viewIndex := 0 }).x0
        (viewport { initLocals with viewIndex := 0 }).y0
        (viewport { initLocals with viewIndex := 0 }).x1
        (viewport { initLocals with viewIndex := 0 }).y1 600 599 256] = _
    rw [viewport_view0]
  · norm_num [Call.valid]
  · show [Call.thread 2
        (scaleAndShift (F32.fin 1) (F32.fin 0) (F32.fin 0) (F32.fin 1) (F32.ofRat 0.01)
          (F32.ofRat 0.0) (F32.ofRat 0.0)).x0
        (scaleAndShift (F32.fin 1) (F32.fin 0) (F32.fin 0) (F32.fin 1) (F32.ofRat 0.01)
          (F32.ofRat 0.0) (F32.ofRat 0.0)).y0
        (scaleAndShift (F32.fin 1) (F32.fin 0) (F32.fin 0) (F32.fin 1) (F32.ofRat 0.01)
          (F32.ofRat 0.0) (F32.ofRat 0.0)).x1
        (scaleAndShift (F32.fin 1) (F32.fin 0) (F32.fin 0) (F32.fin 1) (F32.ofRat 0.01)
          (F32.ofRat 0.0) (F32.ofRat 0.0)).y1 600 599 256] = _
    simp only [scaleAndShift, lit_0_01, lit_0_0, mul_y1_view0, add_y1_view0, mul_x1_inverted,
      add_zero_zero]
  · norm_num [Call.valid, F32.lt]
  · rw [lit_1em10]
    constructor <;> norm_num [F32.lt]
  · show [Call.thread 2
        (scaleAndShift (F32.fin 0) (F32.ofRat 1e-10) (F32.fin 0) (F32.fin 1) (F32.ofRat 0.015)
          (F32.ofRat (-0.98)) (F32.ofRat 0.30)).x0
        (scaleAndShift (F32.fin 0) (F32.ofRat 1e-10) (F32.fin 0) (F32.fin 1) (F32.ofRat 0.015)
          (F32.ofRat (-0.98)) (F32.ofRat 0.30)).y0
        (scaleAndShift (F32.fin 0) (F32.ofRat 1e-10) (F32.fin 0) (F32.fin 1) (F32.ofRat 0.015)
          (F32.ofRat (-0.98)) (F32.ofRat 0.30)).x1
        (scaleAndShift (F32.fin 0) (F32.ofRat 1e-10) (F32.fin 0) (F32.fin 1) (F32.ofRat 0.015)
          (F32.ofRat (-0.98)) (F32.ofRat 0.30)).y1 600 599 256] = _
    simp only [scaleAndShift, lit_1em10, lit_0_015, lit_m0_98, lit_0_30, mul_x0_tiny,
      add_x0_tiny,
      mul_x1_tiny,
      add_x1_tiny,
      add_y0_tiny,
      mul_y1_view2,
      add_y1_view2]
  · norm_num [Call.valid, F32.lt]

/-! ## The buffers handed to `writePPMImage` -/

/-- In comparison mode, with evaluators that write values in
`[0, maxIterations]` into the rows asked and nothing else, both images handed
to `writePPMImage` are `600 x 600` and hold values in `[0, 256]` in every
cell, whatever the fresh arrays held. -/
theorem comparison_images_in_range (env : Env) (hfr : env.framed) (hin : env.inRange)
    (s : Locals) (b : Bounds) :
    ∀ im ∈ (comparison env s b).images,
      im.width = 600 ∧ im.height = 600
      ∧ ∀ k : Int, 0 ≤ k → k < 600 * 600 → 0 ≤ im.data k ∧ im.data k ≤ 256 := by
  have himg : (comparison env s b).images
      = [{ data := (serialBench env b).output, width := 600, height := 600,
           filename := "mandelbrot-v" ++ toString s.viewIndex ++ "-serial.ppm",
           maxIterations := 256 },
         { data := (threadBench env s b).output, width := 600, height := 600,
           filename := "mandelbrot-v" ++ toString s.viewIndex ++ "-thread-"
             ++ toString s.numThreads ++ ".ppm",
           maxIterations := 256 }] := by
    simp only [comparison]
    split <;> rfl
  obtain ⟨hS, hT⟩ := bench_outputs env s b
  intro im him
  rw [himg] at him
  simp only [List.mem_cons, List.mem_singleton, List.not_mem_nil, or_false] at him
  rcases him with rfl | rfl
  · refine ⟨rfl, rfl, ?_⟩
    intro k hk0 hk
    by_cases hrow : k < 600 * 599
    · simp only []
      rw [hS]
      exact hin.1 _ _ _ _ _ _ _ _ _ _ k (by norm_num) (by omega) (by omega)
    · simp only []
      rw [(bench_outputs_last_row env s b (framed_at_main env hfr s b).1
        (framed_at_main env hfr s b).2 k (by omega) hk).1]
      norm_num
  · refine ⟨rfl, rfl, ?_⟩
    intro k hk0 hk
    by_cases hrow : k < 600 * 599
    · simp only []
      rw [hT]
      exact hin.2 _ _ _ _ _ _ _ _ _ k (by norm_num) hk0 (by omega)
    · simp only []
      rw [(bench_outputs_last_row env s b (framed_at_main env hfr s b).1
        (framed_at_main env hfr s b).2 k (by omega) hk).2]
      norm_num

/-- In the fast path, with evaluators that write only the rows asked, the
cells of canvas row 599 of the buffer handed to `writePPMImage` hold what the
fresh array held. -/
theorem fastPath_last_row (env : Env) (hfr : env.framed) (s : Locals) (b : Bounds) :
    ∀ im ∈ (fastPath env s b).images,
      im.width = 600 ∧ im.height = 600
      ∧ ∀ k : Int, 600 * 599 ≤ k → k < 600 * 600 → im.data k = env.fresh 0 k := by
  intro im him
  simp only [fastPath, List.mem_singleton] at him
  subst him
  refine ⟨rfl, rfl, ?_⟩
  intro k h1 h2
  exact hfr.2 _ _ _ _ _ _ _ _ _ k (by simp only [width, iheight, height]; omega)

/-- C9 fails in the fast path.  The sample evaluators write `256` into every
cell of the rows asked and nothing else; with `-o out.ppm` the buffer handed
to `writePPMImage` as a `600 x 600` image holds in cell `599 * 600` whatever
the fresh array held: `-1` in one run, `1000` in another. -/
theorem fastPath_hands_uninitialised_row :
    ((sampleEnv (-1)).framed ∧ (sampleEnv (-1)).inRange)
    ∧ (main (sampleEnv (-1)) [Opt.out "out.ppm"]).images.map
          (fun im => (im.width, im.height, im.data (599 * 600))) = [(600, 600, -1)]
    ∧ (main (sampleEnv 1000) [Opt.out "out.ppm"]).images.map
          (fun im => (im.width, im.height, im.data (599 * 600))) = [(600, 600, 1000)]
    ∧ (main (sampleEnv (-1)) [Opt.out "out.ppm"]).calls
          = [Call.thread 2 (F32.fin (-11633993 / 536870912)) (F32.fin (-5368709 / 536870912))
            (F32.fin (12530567 / 1073741824)) (F32.fin (5368709 / 536870912)) 600 599 256] := by
  refine ⟨⟨sampleEnv_framed _, sampleEnv_inRange _⟩, by decide, by decide, ?_⟩
  show [Call.thread 2 (viewport { initLocals with viewIndex := 0 }).x0
      (viewport { initLocals with viewIndex := 0 }).y0
      (viewport { initLocals with viewIndex := 0 }).x1
      (viewport { initLocals with viewIndex := 0 }).y1 600 599 256] = _
  rw [viewport_view0]

end Mandelbrot
